import Mathlib

/-!
Verification of core components of the vela NPU compiler
(ethosu/vela: api.py, lut.py, supported_operators.py, pass_packing.py,
tensor.py).

The Python sources are shallowly embedded: pure functions become Lean
functions, the mutable state of the LUT allocator and of the pass packer
becomes explicit state passing, Python assertions become an `Except`
error monad, and machine integers become `Nat`/`Int`.  Where a helper
lives in a module that is not part of the source snapshot
(numeric_util.py, operation.py, data_type.py, nn_graph.py,
high_level_command_stream.py), the definition carries a doc comment
starting with "Modelled from the spec:" and follows the specification
document and the unit tests shipped with the sources.
-/

set_option maxRecDepth 10000

namespace Vela

/-! ## api.py: version query -/

/-- `API_version_major` from api.py. -/
def API_version_major : Nat := 1

/-- `API_version_minor` from api.py. -/
def API_version_minor : Nat := 0

/-- `npu_get_API_version` from api.py:
`version = (API_version_major << 16) | (API_version_minor & 0xFFFF)`. -/
def npu_get_API_version : Nat :=
  (API_version_major <<< 16) ||| (API_version_minor &&& 0xFFFF)

/-! ## lut.py: the LUT state machine

A resident LUT is recorded by its equivalence id, its SHRAM address and
its storage size (`Tensor.storage_size()` in tensor.py returns a fixed
positive number of bytes for a given tensor; here it is a field of the
record).  Addresses are natural numbers (SHRAM offsets).
-/

/-- A lookup-table tensor as seen by lut.py: equivalence id, current
address, storage size in bytes. -/
structure LutRec where
  eqId : Nat
  address : Nat
  size : Nat
  deriving DecidableEq, Repr

/-- Modelled from the spec: `numeric_util.overlaps` (numeric_util.py is
not part of the source snapshot).  Two half-open intervals
`[s1, e1)` and `[s2, e2)` overlap iff they intersect. -/
def overlaps (s1 e1 s2 e2 : Nat) : Bool :=
  decide (s1 < e2) && decide (s2 < e1)

/-- Modelled from the spec: `Tensor.equivalent` (the method is not in
the tensor.py snapshot).  Two LUT tensors are equivalent iff they have
the same equivalence id. -/
def LutRec.equivalent (a b : LutRec) : Bool :=
  a.eqId == b.eqId

/-- `LUTState` from lut.py: the list of LUT tensors currently resident
in SHRAM. -/
abbrev LUTState := List LutRec

/-- `LUTState.__init__`: the empty state. -/
def LUTState.empty : LUTState := []

/-- `LUTState.get_equivalent`: the first resident LUT with the same
equivalence id as the given tensor, `none` if there is none. -/
def LUTState.get_equivalent (st : LUTState) (lutTens : LutRec) : Option LutRec :=
  st.find? (fun t => t.equivalent lutTens)

/-- `LUTState.put`: a new state containing the given tensor plus all
tensors of this state whose address interval does not overlap the
interval of the given tensor. -/
def LUTState.put (st : LUTState) (lutTens : LutRec) : LUTState :=
  lutTens ::
    st.filter (fun tens =>
      !overlaps lutTens.address (lutTens.address + lutTens.size)
        tens.address (tens.address + tens.size))

/-- The inner loop of `LUTState.find_best_address`: the number of
resident LUTs whose interval overlaps `[addr, addr + step)`. -/
def LUTState.nrOverlaps (st : LUTState) (addr step : Nat) : Nat :=
  st.foldl
    (fun n tens =>
      if overlaps addr (addr + step) tens.address (tens.address + tens.size)
      then n + 1 else n)
    0

/-- The candidate addresses `range(start, stop, step)` of
`LUTState.find_best_address` (for `step > 0`). -/
def rangeAddrs (start stop step : Nat) : List Nat :=
  List.range' start ((stop - start + step - 1) / step) step

/-- `LUTState.find_best_address`: the address in
`range(start, stop, step)` that overlaps with the minimum number of
currently resident LUTs.  The running best is initialised to
`(start, stop)` exactly as in the source (`best_addr = start`,
`best_nr_overlaps = stop`) and is replaced only on a strictly smaller
overlap count. -/
def LUTState.find_best_address (st : LUTState) (start stop step : Nat) : Nat :=
  ((rangeAddrs start stop step).foldl
    (fun best addr =>
      let n := st.nrOverlaps addr step
      if n < best.2 then (addr, n) else best)
    (start, stop)).1

/-- The fold underlying `find_best_address`, abstracted over the
overlap-count function: the running best `(best_addr, best_nr_overlaps)`
is replaced exactly when the count at the next address is strictly
smaller. -/
def runBest (f : Nat → Nat) (l : List Nat) (b : Nat × Nat) : Nat × Nat :=
  l.foldl (fun best addr => if f addr < best.2 then (addr, f addr) else best) b

/-- The states reachable from the empty `LUTState` by the operations the
command-stream rewrite performs on it: it starts from the empty state,
resets it to the empty state (`lut_state = LUTState()`), and replaces it
by `lut_state.put(lut_tens)` for the LUT tensor of a DMA command. -/
inductive ReachableLutState : LUTState → Prop
  | empty : ReachableLutState LUTState.empty
  | reset (s : LUTState) : ReachableLutState s → ReachableLutState LUTState.empty
  | put (s : LUTState) (t : LutRec) :
      ReachableLutState s → ReachableLutState (s.put t)

/-! ## lut.py: the high-level command-stream rewrite

`optimize_high_level_cmd_stream` walks the command stream of a subgraph,
mutating tensor addresses and the `lut_index` attribute of primary ops
and dropping DMA commands whose LUT is already resident.  Tensors and
ops are named by numeric ids; the mutable `Tensor.address` field becomes
the map `addr`, the mutable `attrs["lut_index"]` of primary ops becomes
the map `lutIndex`.  When a LUT tensor is put into the `LUTState`, the
state records its equivalence id, address and size at that moment
(the source stores object references; the recorded address coincides
with the object address except when an already-resident tensor is
DMA-ed again while a distinct equivalent tensor is also resident). -/

/-- `CommandType` from high_level_command_stream.py (module not in the
snapshot; the two constructors used by lut.py).  Modelled from the spec:
the command stream consists of NPU-stripe commands and DMA commands. -/
inductive CommandType
  | NpuStripe
  | DMA
  deriving DecidableEq, Repr

/-- `TensorPurpose` as used by lut.py.  The tensor.py snapshot lists
Unknown, Weights, FeatureMap and Scratch; lut.py additionally refers to
`TensorPurpose.LUT`, which is modelled here as its own constructor. -/
inductive TensorPurpose
  | Unknown
  | Weights
  | FeatureMap
  | Scratch
  | LUT
  deriving DecidableEq, Repr

/-- The immutable tensor data the rewrite reads, indexed by tensor id:
equivalence id, `storage_size()` and purpose. -/
structure LutTensEnv where
  eqId : Nat → Nat
  size : Nat → Nat
  purpose : Nat → TensorPurpose

/-- A high-level command as read by the rewrite: its type, the
`lut_tensor` of its pass (used by the bank-clobbering test), the primary
op of its pass, and its output tensor.  `outTensor` is only meaningful
for DMA commands. -/
structure HLCmd where
  cmdtype : CommandType
  psLutTensor : Option Nat
  psPrimaryOp : Nat
  outTensor : Nat
  deriving DecidableEq, Repr

/-- The architecture fields the rewrite reads. -/
structure ArchLut where
  shram_lut_address : Nat
  shram_lut_size : Nat
  shram_reserved_unused_banks : Nat
  deriving Repr

/-- Failure of the `assert 0 <= slot < 8` in `get_lut_index`. -/
inductive LutErr
  | slotAssert
  deriving DecidableEq, Repr

/-- `get_lut_index` from lut.py:
`slot = (lut_tensor.address - arch.shram_lut_address) // lut_tensor.storage_size()`
with `assert 0 <= slot < 8`.  Addresses of resident LUTs are produced by
`find_best_address` and hence are at least `shram_lut_address`, so
truncated `Nat` subtraction coincides with the source arithmetic. -/
def get_lut_index (arch : ArchLut) (lutTensor : LutRec) : Except LutErr Nat :=
  let slot := (lutTensor.address - arch.shram_lut_address) / lutTensor.size
  if slot < 8 then .ok slot else .error .slotAssert

/-- Pointwise update of a map, modelling a single field assignment. -/
def updMap {α : Type} (m : Nat → α) (k : Nat) (v : α) : Nat → α :=
  fun x => if x = k then v else m x

/-- The mutable state of `optimize_high_level_cmd_stream`: the LUT
state, the tensor addresses, the `lut_index` attributes, and the new
command stream built so far. -/
structure RewriteState where
  lutState : LUTState
  addr : Nat → Nat
  lutIndex : Nat → Option Nat
  stream : List HLCmd

/-- The body of the `for cmd in sg.high_level_command_stream` loop of
`optimize_high_level_cmd_stream`, processing one command. -/
def optStep (env : LutTensEnv) (arch : ArchLut) (s : RewriteState) (cmd : HLCmd) :
    Except LutErr RewriteState :=
  let slot_size := 256
  let lut_start := arch.shram_lut_address
  let lut_end := lut_start + arch.shram_lut_size
  -- The command overwrites the last 2 banks containing the LUT
  let s :=
    if cmd.cmdtype = CommandType.NpuStripe ∧ cmd.psLutTensor = none ∧
        arch.shram_reserved_unused_banks = 0 then
      { s with lutState := LUTState.empty }
    else s
  if cmd.cmdtype ≠ CommandType.DMA ∨ env.purpose cmd.outTensor ≠ TensorPurpose.LUT then
    -- Non-LUT operation; leave untouched
    .ok { s with stream := s.stream ++ [cmd] }
  else
    -- LUT DMA operation
    let tid := cmd.outTensor
    let lutTens : LutRec := ⟨env.eqId tid, s.addr tid, env.size tid⟩
    match s.lutState.get_equivalent lutTens with
    | some existingTens =>
        -- LUT is already in SHRAM, no need to perform DMA
        do
          let slot ← get_lut_index arch existingTens
          .ok { s with
                  addr := updMap s.addr tid existingTens.address,
                  lutIndex := updMap s.lutIndex cmd.psPrimaryOp (some slot) }
    | none =>
        -- Place the LUT in the last 2 blocks of SHRAM
        let address := s.lutState.find_best_address lut_start lut_end (env.size tid)
        .ok { s with
                addr := updMap s.addr tid address,
                lutIndex :=
                  updMap s.lutIndex cmd.psPrimaryOp (some ((address - lut_start) / slot_size)),
                lutState := s.lutState.put ⟨env.eqId tid, address, env.size tid⟩,
                stream := s.stream ++ [cmd] }

/-- `optimize_high_level_cmd_stream` from lut.py: fold `optStep` over
the subgraph's command stream, starting from the empty LUT state and the
given initial tensor addresses and `lut_index` attributes; the resulting
`stream` replaces the subgraph's command stream. -/
def optimize_high_level_cmd_stream (env : LutTensEnv) (arch : ArchLut)
    (addr0 : Nat → Nat) (lutIndex0 : Nat → Option Nat) (cmds : List HLCmd) :
    Except LutErr RewriteState :=
  cmds.foldlM (optStep env arch) ⟨LUTState.empty, addr0, lutIndex0, []⟩

/-! ### Concrete LUT inputs used by counterexamples and witnesses -/

/-- A LUT state with four resident LUTs.  Address 0 is overlapped by
three of them, address 1 only by two, yet `find_best_address 0 2 1`
returns 0 because the initial best overlap count is the sentinel
`stop = 2` and neither count is below it. -/
def fbaExState : LUTState := [⟨1, 0, 1⟩, ⟨2, 0, 1⟩, ⟨3, 0, 2⟩, ⟨4, 1, 1⟩]

/-- Tensor environment for the rewrite examples: tensor 1 is a 256-byte
LUT with equivalence id 1; tensors 2 and 3 are 512-byte LUTs sharing
equivalence id 2. -/
def lutExEnv : LutTensEnv :=
  { eqId := fun t => if t = 1 then 1 else 2
    size := fun t => if t = 1 then 256 else 512
    purpose := fun _ => TensorPurpose.LUT }

/-- Architecture for the rewrite examples: LUT region `[0, 2048)`. -/
def lutExArch : ArchLut := ⟨0, 2048, 1⟩

/-- Three LUT DMA commands: tensor 1, tensor 2, then tensor 3 (which is
equivalent to the already-resident tensor 2). -/
def lutExCmds : List HLCmd :=
  [⟨CommandType.DMA, none, 11, 1⟩, ⟨CommandType.DMA, none, 12, 2⟩,
    ⟨CommandType.DMA, none, 13, 3⟩]

/-- The final rewrite state of the example run (the run succeeds, so the
default is never used). -/
def lutExFinal : RewriteState :=
  (optimize_high_level_cmd_stream lutExEnv lutExArch (fun _ => 0) (fun _ => none)
      lutExCmds).toOption.getD ⟨[], fun _ => 0, fun _ => none, []⟩

/-- The rewrite state entering the third command of the example run. -/
def lutExMidState : RewriteState :=
  (optimize_high_level_cmd_stream lutExEnv lutExArch (fun _ => 0) (fun _ => none)
      (lutExCmds.take 2)).toOption.getD ⟨[], fun _ => 0, fun _ => none, []⟩

/-- The rewrite state after processing the third command of the example
run (whose DMA finds an equivalent resident LUT). -/
def lutExStep3 : RewriteState :=
  (optStep lutExEnv lutExArch lutExMidState ⟨CommandType.DMA, none, 13, 3⟩).toOption.getD
    ⟨[], fun _ => 0, fun _ => none, []⟩

/-! ## supported_operators.py: the operator legality checker

Each constraint of the source is a predicate returning
`(valid, diagnostic)`; the diagnostic strings are irrelevant to the
claims and are omitted, so constraints are `SOp → Bool` here.  Several
attribute and accessor helpers live in operation.py and data_type.py,
which are not part of the snapshot; those definitions are modelled from
the spec and from the unit tests in test_supported_operators.py and are
marked as such.  Places where the source would raise an exception on
malformed operators (attribute access on a missing tensor, an absent
mandatory attribute) are modelled as the constraint returning `false`;
every such spot is unreachable behind an earlier constraint for the
inputs the claims concern. -/

/-- Modelled from the spec: `DataType` of data_type.py (module not in
the snapshot): the element types appearing in the checker and its
tests, with intrinsic bit width and signedness. -/
inductive DataType
  | uint8
  | int8
  | uint16
  | int16
  | int32
  | int64
  | float32
  deriving DecidableEq, Repr

/-- Modelled from the spec: bit width of a data type. -/
def DataType.size_in_bits : DataType → Nat
  | .uint8 => 8
  | .int8 => 8
  | .uint16 => 16
  | .int16 => 16
  | .int32 => 32
  | .int64 => 64
  | .float32 => 32

/-- Modelled from the spec: whether `dtype.type & BaseType.Signed` is
set (the signed integer types). -/
def DataType.isSigned : DataType → Bool
  | .int8 | .int16 | .int32 | .int64 => true
  | _ => false

/-- Modelled from the spec: whether `dtype.type & BaseType.Unsigned` is
set (the unsigned integer types). -/
def DataType.isUnsigned : DataType → Bool
  | .uint8 | .uint16 => true
  | _ => false

/-- Modelled from the spec: the `Op` enum of operation.py (module not
in the snapshot), restricted to the operator kinds the checker refers
to. -/
inductive OpType
  | SplitSliceRead
  | Conv2DBias | Conv2D | QuantizedConv2D
  | DepthwiseConv2DBias
  | Conv2DBackpropInput
  | MaxPool | AvgPool | ReduceSum
  | ResizeBilinear
  | QuantizedMatMul | MatMul | FullyConnected
  | BlockLSTM
  | Abs | LeakyRelu | CLZ
  | Minimum | Maximum
  | SHL | SHR
  | Add | Mul | Sub
  | Relu | Relu6 | ReluN1To1
  | Tanh | Sigmoid | Softmax
  | ConcatSliceWrite | Quantize
  | Split | SplitV | StridedSlice | Slice | UnpackReshaped | Unpack
  | Concat | ConcatTFLite | PackReshaped | Pack
  | Squeeze | Reshape | QuantizedReshape
  | LUT | Placeholder | SubgraphInput | Const
  deriving DecidableEq, Repr

/-- A float value as far as the checker observes it: finite (as a
rational), one of the two infinities, or NaN.  Only finiteness,
infinity and ordering are consulted by the constraints. -/
inductive FloatVal
  | finite (q : ℚ)
  | inf
  | neginf
  | nan
  deriving DecidableEq, Repr

/-- `np.isinf` on a single float value. -/
def FloatVal.isinf : FloatVal → Bool
  | .inf | .neginf => true
  | _ => false

/-- The largest finite float32 value, `(2 - 2^-23) * 2^127`. -/
def float32Max : ℚ := 2 ^ 128 - 2 ^ 104

/-- Float division as observed by `constraint_quant_scale_inf`:
division of two finite float32 values overflows to a signed infinity
beyond `float32Max`; division by zero follows numpy (signed infinity,
with `0/0 = NaN`).  Rounding of finite results is not modelled; only
`isinf` of the result is ever consulted. -/
def FloatVal.fdiv : FloatVal → FloatVal → FloatVal
  | .finite a, .finite b =>
      if b = 0 then (if a = 0 then .nan else if 0 < a then .inf else .neginf)
      else if float32Max < |a / b| then (if 0 < a / b then .inf else .neginf)
      else .finite (a / b)
  | .finite _, .inf => .finite 0
  | .finite _, .neginf => .finite 0
  | .inf, .finite b => if b < 0 then .neginf else .inf
  | .neginf, .finite b => if b < 0 then .inf else .neginf
  | _, _ => .nan

/-- A quantization scale: a scalar float or a per-axis array. -/
inductive ScaleVal
  | scalar (v : FloatVal)
  | array (l : List FloatVal)
  deriving DecidableEq, Repr

/-- `np.isinf(scale).any()`. -/
def ScaleVal.anyInf : ScaleVal → Bool
  | .scalar v => v.isinf
  | .array l => l.any FloatVal.isinf

/-- A quantization zero point: a scalar integer or an integer array. -/
inductive ZeroPoint
  | scalar (z : Int)
  | array (l : List Int)
  deriving DecidableEq, Repr

/-- The fields of `QuantizationParameters` (tensor.py) the checker
reads. -/
structure QuantParams where
  scale_f32 : Option ScaleVal
  zero_point : ZeroPoint
  deriving DecidableEq, Repr

/-- Modelled from the spec: `QuantizationParameters.is_per_axis` (the
method is not in the tensor.py snapshot): a tensor is per-axis
quantized iff its zero point is a multi-element array. -/
def QuantParams.is_per_axis (q : QuantParams) : Bool :=
  match q.zero_point with
  | .array l => decide (1 < l.length)
  | .scalar _ => false

/-- The 4-dimensional weight value array (axes H, W, I, O). -/
abbrev W4 := List (List (List (List Int)))

/-- A tensor as seen by the checker.  `shape` entries are `none` for
undefined dimensions; `values` records constant values when present (a
flat integer view — only presence and small integer contents are
consulted); `quant_values` is the flat view of `Tensor.quant_values`
used by the bias check, `quant_values4` the 4-D view used by the
weight-sum check. -/
structure STensor where
  shape : List (Option Int)
  dtype : DataType
  values : Option (List Int)
  quant_values : Option (List Int)
  quant_values4 : Option W4
  quantization : Option QuantParams
  deriving DecidableEq, Repr

/-- A numeric attribute value: Python ints, floats, or any other type
(covering the string attributes the tests feed in, for which
`numeric_util.is_integer` is false and numeric comparisons are
unreachable behind type checks). -/
inductive AttrNum
  | int (i : Int)
  | float (q : ℚ)
  | str
  deriving DecidableEq, Repr

/-- Modelled from the spec: `numeric_util.is_integer` — whether the
attribute is an integer-typed value. -/
def AttrNum.isInt : AttrNum → Bool
  | .int _ => true
  | _ => false

/-- Numeric range check `lo <= v <= hi`; false on a non-numeric value
(the source would raise there, unreachably behind the type checks). -/
def AttrNum.inRange (lo hi : Int) : AttrNum → Bool
  | .int i => decide (lo ≤ i) && decide (i ≤ hi)
  | .float q => decide ((lo : ℚ) ≤ q) && decide (q ≤ (hi : ℚ))
  | .str => false

/-- Numeric equality with an integer. -/
def AttrNum.eqInt (n : Int) : AttrNum → Bool
  | .int i => i == n
  | .float q => q == (n : ℚ)
  | .str => false

/-- Numeric non-negativity `v >= 0`. -/
def AttrNum.geZero : AttrNum → Bool
  | .int i => decide (0 ≤ i)
  | .float q => decide (0 ≤ q)
  | .str => false

/-- The integer value of a numeric attribute, with a default for
non-integers (only consulted after the corresponding type checks). -/
def AttrNum.toIntD (d : Int) : AttrNum → Int
  | .int i => i
  | _ => d

/-- The rational value of a numeric attribute (for products of filter
sizes). -/
def AttrNum.toQ : AttrNum → ℚ
  | .int i => (i : ℚ)
  | .float q => q
  | .str => 0

/-- The byte-string padding attribute values `b"SAME"` and
`b"VALID"`. -/
inductive PaddingAttr
  | SAME
  | VALID
  deriving DecidableEq, Repr

/-- The attribute bag of an operator, restricted to the keys the
checker reads (`op.attrs` is an untyped string-keyed mapping in the
source; a missing key is `none`). -/
structure SAttrs where
  stride_w : Option AttrNum := none
  stride_h : Option AttrNum := none
  dilation_w_factor : Option AttrNum := none
  dilation_h_factor : Option AttrNum := none
  filter_width : Option AttrNum := none
  filter_height : Option AttrNum := none
  padding : Option PaddingAttr := none
  depth_multiplier : Option Int := none
  axis : Option Int := none
  beta : Option AttrNum := none
  alpha : Option AttrNum := none
  align_corners : Bool := false
  ellipsis_mask : Option Int := none
  new_axis_mask : Option Int := none
  shrink_axis_mask : Option Int := none
  begin_mask : Option Int := none
  end_mask : Option Int := none
  deriving DecidableEq, Repr

/-- An operator as seen by the checker.  `inputs`/`outputs` may contain
`none` entries (absent optional tensors, as in the reader tests).  The
`ifm`/`ifm2`/`weights`/`bias`/`ofm` accessors of operation.py (not in
the snapshot) are modelled as fields; per the spec and the unit tests
they denote the feature-map inputs, the weight tensor, the bias tensor
and the first output, and in particular `get_ifm_ifm2_weights_ofm`
never includes the bias tensor (otherwise the int32/int64 bias types
admitted by `constraint_bias_type` would be rejected by
`constraint_tens_dtype` and `constraint_tens_int32_ops`, contradicting
the passing tests). -/
structure SOp where
  type : OpType
  inputs : List (Option STensor) := []
  outputs : List (Option STensor) := []
  ifm : Option STensor := none
  ifm2 : Option STensor := none
  weights : Option STensor := none
  bias : Option STensor := none
  ofm : Option STensor := none
  attrs : SAttrs := {}
  activation : Option OpType := none
  deriving DecidableEq, Repr

/-- `[tens for tens in l if tens]`. -/
def optTensors (l : List (Option STensor)) : List STensor := l.filterMap id

/-- `op.inputs + op.outputs`, filtered. -/
def SOp.inOutTensors (op : SOp) : List STensor :=
  optTensors (op.inputs ++ op.outputs)

/-- Modelled from the spec: `op.get_ifm_ifm2_weights_ofm()` filtered of
`None` entries, as every constraint uses it. -/
def SOp.ifmWeightsOfm (op : SOp) : List STensor :=
  optTensors [op.ifm, op.ifm2, op.weights, op.ofm]

/-- The tensor list of the dtype/int32/dimension constraints: the
IFM/IFM2/weights/OFM tensors, falling back to the inputs when that list
is empty. -/
def SOp.ifmTensorsOrInputs (op : SOp) : List STensor :=
  if op.ifmWeightsOfm.isEmpty then optTensors op.inputs else op.ifmWeightsOfm

/-- `tens.shape[i]` (`none` when out of range, which the source could
only reach by raising). -/
def STensor.shapeAt (t : STensor) (i : Nat) : Option Int :=
  (t.shape.getD i none)

/-- `Tensor.has_fully_defined_shape` from tensor.py. -/
def STensor.has_fully_defined_shape (t : STensor) : Bool :=
  t.shape.all Option.isSome

/-! ### Operator sets (class attributes of `SupportedOperators`) -/

def npu_pre_ops : List OpType := [.SplitSliceRead]

def convolution_ops : List OpType := [.Conv2DBias, .Conv2D, .QuantizedConv2D]

def depthwise_convolution_ops : List OpType := [.DepthwiseConv2DBias]

def transpose_convolution_ops : List OpType := [.Conv2DBackpropInput]

def convolution_like_ops : List OpType :=
  convolution_ops ++ depthwise_convolution_ops ++ transpose_convolution_ops

/-- Modelled from the spec: `Op.op_set(Op.is_maxpool_op)`. -/
def max_pooling_ops : List OpType := [.MaxPool]

/-- Modelled from the spec: `Op.op_set(Op.is_avgpool_op)`. -/
def avg_pooling_ops : List OpType := [.AvgPool]

def pooling_ops : List OpType := [.ReduceSum] ++ max_pooling_ops ++ avg_pooling_ops

def resizing_ops : List OpType := [.ResizeBilinear]

def fc_vector_products : List OpType := [.QuantizedMatMul, .MatMul, .FullyConnected]

def mac_main_ops : List OpType :=
  [.BlockLSTM] ++ convolution_like_ops ++ pooling_ops ++ resizing_ops ++ fc_vector_products

/-- Modelled from the spec: `Op.op_set(Op.is_unary_elementwise_op)`. -/
def unary_elem_wise_main_ops : List OpType := [.Abs, .LeakyRelu, .CLZ]

def binary_elem_wise_min_max_ops : List OpType := [.Minimum, .Maximum]

def binary_elem_wise_shift_ops : List OpType := [.SHL, .SHR]

def binary_elem_wise_add_mul_sub : List OpType := [.Add, .Mul, .Sub]

def binary_elem_wise_main_ops : List OpType :=
  binary_elem_wise_min_max_ops ++ binary_elem_wise_add_mul_sub ++ binary_elem_wise_shift_ops

def elem_wise_main_ops : List OpType :=
  binary_elem_wise_main_ops ++ unary_elem_wise_main_ops

def supported_int32_tensor_ops : List OpType :=
  [.ReduceSum, .CLZ] ++ binary_elem_wise_add_mul_sub ++ binary_elem_wise_shift_ops

/-- Modelled from the spec: `Op.op_set(Op.is_relu_op)`. -/
def relu_ops : List OpType := [.Relu, .Relu6, .ReluN1To1]

def activation_ops : List OpType := relu_ops ++ [.Tanh, .Sigmoid, .Softmax]

def npu_post_ops : List OpType := activation_ops ++ [.ConcatSliceWrite] ++ [.Quantize]

def split_ops : List OpType :=
  [.Split, .SplitV, .StridedSlice, .Slice, .UnpackReshaped, .Unpack]

def concat_ops : List OpType := [.Concat, .ConcatTFLite, .PackReshaped, .Pack]

def memory_only_ops : List OpType :=
  [.Squeeze, .Reshape, .QuantizedReshape] ++ concat_ops ++ split_ops

def shapeless_input_ops : List OpType := binary_elem_wise_main_ops ++ [.Split, .SplitV]

def per_axis_quant_ops : List OpType := convolution_like_ops

def supported_fused_activations : List OpType := relu_ops ++ [.Tanh, .Sigmoid, .LUT]

def supported_operators : List OpType :=
  npu_pre_ops ++ mac_main_ops ++ elem_wise_main_ops ++ npu_post_ops ++ memory_only_ops

def supported_op_dtypes : List DataType := [.uint8, .int8, .int16, .int32]

def supported_bias_dtypes : List DataType := [.int32, .int64]

def tens_dim_min : Int := 1
def tens_dim_max : Int := 65535
def weights_limit : Nat := 127 * 65536

/-! ### Modelled kernel accessors

The checker reads `op.get_kernel_stride()`, `op.get_kernel_dilation()`
and `op.kernel` from operation.py (not in the snapshot).  Modelled from
the spec and the unit tests: strides and dilations come from the
attribute bag (dilation defaulting to 1); the kernel height and width of
a convolution-family op come from dimensions 0 and 1 of the weight
tensor shape, those of a pooling op from the `filter_height` and
`filter_width` attributes; the dilated sizes are
`(size - 1) * dilation + 1`. -/

/-- Modelled from the spec: `op.get_kernel_stride()`. -/
def SOp.kernelStrideW (op : SOp) : AttrNum := op.attrs.stride_w.getD (.int 1)

/-- Modelled from the spec: `op.get_kernel_stride()`. -/
def SOp.kernelStrideH (op : SOp) : AttrNum := op.attrs.stride_h.getD (.int 1)

/-- Modelled from the spec: `op.get_kernel_dilation()`. -/
def SOp.kernelDilationW (op : SOp) : AttrNum :=
  op.attrs.dilation_w_factor.getD (.int 1)

/-- Modelled from the spec: `op.get_kernel_dilation()`. -/
def SOp.kernelDilationH (op : SOp) : AttrNum :=
  op.attrs.dilation_h_factor.getD (.int 1)

/-- Modelled from the spec: `op.kernel.height` for a conv-family op
(dimension 0 of the weight shape). -/
def SOp.convKernelH (op : SOp) : Int :=
  match op.weights with
  | some w => (w.shapeAt 0).getD 1
  | none => 1

/-- Modelled from the spec: `op.kernel.width` for a conv-family op
(dimension 1 of the weight shape). -/
def SOp.convKernelW (op : SOp) : Int :=
  match op.weights with
  | some w => (w.shapeAt 1).getD 1
  | none => 1

/-- Modelled from the spec: `op.kernel.area_height()`,
`(height - 1) * dilation_y + 1`. -/
def SOp.areaHeight (op : SOp) : Int :=
  (op.convKernelH - 1) * (op.kernelDilationH.toIntD 1) + 1

/-- Modelled from the spec: `op.kernel.area_width()`. -/
def SOp.areaWidth (op : SOp) : Int :=
  (op.convKernelW - 1) * (op.kernelDilationW.toIntD 1) + 1

/-! ### Generic constraints -/

/-- `constraint_tens_no_dynamic`. -/
def constraint_tens_no_dynamic (op : SOp) : Bool :=
  op.inOutTensors.all (fun t => !(decide (t.shape = []) && t.values.isNone))

/-- `constraint_tens_defined_shape`. -/
def constraint_tens_defined_shape (op : SOp) : Bool :=
  op.inOutTensors.all STensor.has_fully_defined_shape

/-- `constraint_tens_output_scalar` (a missing OFM would raise in the
source; modelled as failing). -/
def constraint_tens_output_scalar (op : SOp) : Bool :=
  match op.ofm with
  | some t => decide (t.shape ≠ [])
  | none => false

/-- `constraint_tens_input_scalar`. -/
def constraint_tens_input_scalar (op : SOp) : Bool :=
  (optTensors op.inputs).all
    (fun t => !(decide (t.shape = []) && !(shapeless_input_ops.contains op.type)))

/-- `constraint_tens_shape_size`. -/
def constraint_tens_shape_size (op : SOp) : Bool :=
  op.inOutTensors.all (fun t => decide (t.shape.length ≤ 4))

/-- `constraint_tens_dtype`. -/
def constraint_tens_dtype (op : SOp) : Bool :=
  op.ifmTensorsOrInputs.all (fun t => supported_op_dtypes.contains t.dtype)

/-- `constraint_tens_int32_ops`. -/
def constraint_tens_int32_ops (op : SOp) : Bool :=
  op.ifmTensorsOrInputs.all
    (fun t => !(t.dtype == DataType.int32 && !(supported_int32_tensor_ops.contains op.type)))

/-- `constraint_tens_dimension` (an undefined dimension cannot be
compared in the source; modelled as failing, unreachably behind
`constraint_tens_defined_shape`). -/
def constraint_tens_dimension (op : SOp) : Bool :=
  op.ifmTensorsOrInputs.all (fun t =>
    t.shape.all (fun d =>
      match d with
      | some v => decide (tens_dim_min ≤ v) && decide (v ≤ tens_dim_max)
      | none => false))

/-- `constraint_tens_quant_none_check`. -/
def constraint_tens_quant_none_check (op : SOp) : Bool :=
  op.ifmWeightsOfm.all (fun t => t.quantization.isSome)

/-- `constraint_tens_quant_scale` (missing quantization would raise;
modelled as failing, unreachably behind the none-check). -/
def constraint_tens_quant_scale (op : SOp) : Bool :=
  op.ifmWeightsOfm.all (fun t =>
    match t.quantization with
    | some q =>
        match q.scale_f32 with
        | some s => !s.anyInf
        | none => true
    | none => false)

/-- `constraint_tens_quant_per_axis`. -/
def constraint_tens_quant_per_axis (op : SOp) : Bool :=
  if per_axis_quant_ops.contains op.type then true
  else
    op.ifmWeightsOfm.all (fun t =>
      match t.quantization with
      | some q => !q.is_per_axis
      | none => false)

/-- `constraint_faf`. -/
def constraint_faf (op : SOp) : Bool :=
  match op.activation with
  | none => true
  | some faf => supported_fused_activations.contains faf

/-! ### Conv-family constraints -/

/-- `constraint_stride_type`. -/
def constraint_stride_type (op : SOp) : Bool :=
  op.kernelStrideW.isInt && op.kernelStrideH.isInt

/-- `constraint_stride_range` (`stride_range = (1, 3)`). -/
def constraint_stride_range (op : SOp) : Bool :=
  op.kernelStrideW.inRange 1 3 && op.kernelStrideH.inRange 1 3

/-- `constraint_dilation_type`. -/
def constraint_dilation_type (op : SOp) : Bool :=
  op.kernelDilationW.isInt && op.kernelDilationH.isInt

/-- `constraint_dilation_range` (`dilation_range = (1, 2)`). -/
def constraint_dilation_range (op : SOp) : Bool :=
  op.kernelDilationW.inRange 1 2 && op.kernelDilationH.inRange 1 2

/-- `constraint_dilated_height_range` (`dilated_height_range = (1, 64)`). -/
def constraint_dilated_height_range (op : SOp) : Bool :=
  decide (1 ≤ op.areaHeight) && decide (op.areaHeight ≤ 64)

/-- `constraint_dilated_product_range`
(`dilated_product_range = (1, 64 * 64)`). -/
def constraint_dilated_product_range (op : SOp) : Bool :=
  decide (1 ≤ op.areaWidth * op.areaHeight) &&
    decide (op.areaWidth * op.areaHeight ≤ 64 * 64)

/-- `constraint_weights_type`: `weights.element_size() == 1`
(`Tensor.element_size` from tensor.py is the dtype size in bytes when
`element_size_bytes` is unset, as for checker inputs). -/
def constraint_weights_type (op : SOp) : Bool :=
  match op.weights with
  | some w => w.dtype.size_in_bits / 8 == 1
  | none => false

/-- `constraint_weights_const`. -/
def constraint_weights_const (op : SOp) : Bool :=
  match op.weights with
  | some w => w.values.isSome
  | none => false

/-- The per-output-channel zero point (numpy broadcasting of the zero
point over the last axis of the weight volume; a scalar zero point
applies to every channel). -/
def zeroPointAt (zp : ZeroPoint) (o : Nat) : Int :=
  match zp with
  | .scalar z => z
  | .array l => l.getD o 0

/-- `np.amax(np.sum(np.absolute(values), axis=(0, 1, 2)))` of
`weights.quant_values.astype(int64) - zero_point`: the innermost lists
run over the output-channel axis; every (H, W, I) position contributes
its absolute deviation to each channel sum, and the largest channel sum
is returned (0 for an empty volume, where numpy would raise). -/
def weightsLimitVal (w4 : W4) (zp : ZeroPoint) : Nat :=
  let rows := w4.flatten.flatten
  let width := (rows.headD []).length
  ((List.range width).map (fun o =>
      (rows.map (fun row => (row.getD o 0 - zeroPointAt zp o).natAbs)).sum)).foldl
    max 0

/-- `constraint_weights_limit` (`weights_limit = 127 * 65536`; missing
weights, values or quantization would raise; modelled as failing). -/
def constraint_weights_limit (op : SOp) : Bool :=
  match op.weights with
  | some w =>
      match w.quant_values4, w.quantization with
      | some w4, some q => decide (weightsLimitVal w4 q.zero_point ≤ weights_limit)
      | _, _ => false
  | none => false

/-- `constraint_bias_type`. -/
def constraint_bias_type (op : SOp) : Bool :=
  match op.bias with
  | some b => supported_bias_dtypes.contains b.dtype
  | none => true

/-- `len(bin(v)[2:])` for a Python int `v`: the binary digit count for
non-negative values; for negatives the leading minus sign shifts the
slice so one extra character is counted. -/
def pyBinLen (v : Int) : Nat :=
  if 0 ≤ v then (if v = 0 then 1 else Nat.log2 v.toNat + 1)
  else 1 + (Nat.log2 (-v).toNat + 1)

/-- `constraint_bias_40bit`. -/
def constraint_bias_40bit (op : SOp) : Bool :=
  match op.bias with
  | some b =>
      if b.dtype == DataType.int64 && b.quant_values.isSome then
        (b.quant_values.getD []).all (fun v => decide (pyBinLen v ≤ 40))
      else true
  | none => true

/-- `constraint_batch_size`: `ifm.shape[0] == 1` (missing IFM or scalar
shape would raise; modelled as failing). -/
def constraint_batch_size (op : SOp) : Bool :=
  match op.ifm with
  | some t =>
      match t.shape.head? with
      | some (some v) => v == 1
      | _ => false
  | none => false

/-- `constraint_quant_scale_inf` (Relu family): the IFM scale divided
by the OFM scale must not be infinite.  Array scales and missing values
would raise in the source; modelled as failing. -/
def constraint_quant_scale_inf (op : SOp) : Bool :=
  match op.ifm, op.ofm with
  | some t1, some t3 =>
      match t1.quantization, t3.quantization with
      | some q1, some q3 =>
          match q1.scale_f32, q3.scale_f32 with
          | some (.scalar a), some (.scalar b) => !(a.fdiv b).isinf
          | _, _ => false
      | _, _ => false
  | _, _ => false

/-- `constraint_depth_multiplier`. -/
def constraint_depth_multiplier (op : SOp) : Bool :=
  let dm := op.attrs.depth_multiplier.getD 1
  if 1 < dm then
    match op.ifm, op.ofm with
    | some ti, some to_ =>
        match ti.shapeAt 3, to_.shapeAt 3 with
        | some ci, some co => (ci == 1) && (co == dm)
        | _, _ => false
    | _, _ => false
  else true

/-- `constraint_tconv_stride`: stride W and H must be 2. -/
def constraint_tconv_stride (op : SOp) : Bool :=
  op.kernelStrideW.eqInt 2 && op.kernelStrideH.eqInt 2

/-- `constraint_tconv_same` (a missing padding attribute would raise;
modelled as failing). -/
def constraint_tconv_same (op : SOp) : Bool :=
  match op.attrs.padding with
  | some .SAME =>
      let w := op.kernelStrideW.toIntD 1
      let h := op.kernelStrideH.toIntD 1
      (match op.ofm, op.ifm with
       | some t3, some t1 =>
           (match t3.shapeAt 1, t1.shapeAt 1, t3.shapeAt 2, t1.shapeAt 2 with
            | some o1, some i1, some o2, some i2 => (o1 == i1 * h) && (o2 == i2 * w)
            | _, _, _, _ => false)
       | _, _ => false)
  | some .VALID => true
  | none => false

/-- `constraint_tconv_valid`. -/
def constraint_tconv_valid (op : SOp) : Bool :=
  match op.attrs.padding with
  | some .VALID =>
      let sw := op.kernelStrideW.toIntD 1
      let sh := op.kernelStrideH.toIntD 1
      let kw := op.convKernelW
      let kh := op.convKernelH
      (match op.ofm, op.ifm with
       | some t3, some t1 =>
           (match t3.shapeAt 1, t1.shapeAt 1, t3.shapeAt 2, t1.shapeAt 2 with
            | some o1, some i1, some o2, some i2 =>
                (o1 == i1 * sh + max (kh - sh) 0) && (o2 == i2 * sw + max (kw - sw) 0)
            | _, _, _, _ => false)
       | _, _ => false)
  | some .SAME => true
  | none => false

/-! ### Pooling, resize and remaining per-kind constraints -/

/-- `constraint_matching_in_out_types`. -/
def constraint_matching_in_out_types (op : SOp) : Bool :=
  match op.ifm, op.ofm with
  | some t1, some t3 => t1.dtype == t3.dtype
  | _, _ => false

/-- `constraint_beta_value_range` (`attrs.get("beta", 1.0)`). -/
def constraint_beta_value_range (op : SOp) : Bool :=
  (op.attrs.beta.getD (.float 1)).geZero

/-- `constraint_filter_type`. -/
def constraint_filter_type (op : SOp) : Bool :=
  (op.attrs.filter_width.getD (.int 1)).isInt &&
    (op.attrs.filter_height.getD (.int 1)).isInt

/-- `constraint_filter_range` (`filter_range = (1, 8)`, SAME padding
only). -/
def constraint_filter_range (op : SOp) : Bool :=
  match op.attrs.padding with
  | some .SAME =>
      (op.attrs.filter_width.getD (.int 1)).inRange 1 8 &&
        (op.attrs.filter_height.getD (.int 1)).inRange 1 8
  | some .VALID => true
  | none => false

/-- `constraint_filter_height_range` (`filter_height_range = (1, 256)`). -/
def constraint_filter_height_range (op : SOp) : Bool :=
  (op.attrs.filter_height.getD (.int 1)).inRange 1 256

/-- `constraint_filter_product_range`
(`filter_product_range = (1, 256 * 256)`). -/
def constraint_filter_product_range (op : SOp) : Bool :=
  let p := (op.attrs.filter_width.getD (.int 1)).toQ *
    (op.attrs.filter_height.getD (.int 1)).toQ
  decide ((1 : ℚ) ≤ p) && decide (p ≤ (256 * 256 : ℚ))

/-- `constraint_filter_height_range_valid_pad`. -/
def constraint_filter_height_range_valid_pad (op : SOp) : Bool :=
  match op.attrs.padding with
  | some .VALID => constraint_filter_height_range op
  | some .SAME => true
  | none => false

/-- `constraint_filter_product_range_valid_pad`. -/
def constraint_filter_product_range_valid_pad (op : SOp) : Bool :=
  match op.attrs.padding with
  | some .VALID => constraint_filter_product_range op
  | some .SAME => true
  | none => false

/-- The upscaling loop of `constraint_resize`: while both upscaled
dimensions are below the output, double them (less one with aligned
corners) and compare.  The fuel bounds the doubling; 64 iterations
exceed any representable dimension, and the source loop terminates for
every shape admitted by `constraint_tens_dimension`. -/
def resizeLoop : Nat → Int → Int → Int → Int → Bool → Bool
  | 0, _, _, _, _, _ => false
  | fuel + 1, u1, u2, o1, o2, ac =>
      if u1 < o1 ∧ u2 < o2 then
        let u1' := if ac then u1 * 2 - 1 else u1 * 2
        let u2' := if ac then u2 * 2 - 1 else u2 * 2
        if o1 == u1' && o2 == u2' then true
        else resizeLoop fuel u1' u2' o1 o2 ac
      else false

/-- `constraint_resize`. -/
def constraint_resize (op : SOp) : Bool :=
  match op.ifm, op.ofm with
  | some t1, some t3 =>
      let ac := op.attrs.align_corners
      if t1.shape.length == 4 then
        if ((t1.shapeAt 1 == some 1) && (t1.shapeAt 2 == some 1)) ||
            (t1.shape == t3.shape) then true
        else
          match t1.shapeAt 1, t1.shapeAt 2, t3.shapeAt 1, t3.shapeAt 2 with
          | some u1, some u2, some o1, some o2 => resizeLoop 64 u1 u2 o1 o2 ac
          | _, _, _, _ => false
      else false
  | _, _ => false

/-- `constraint_matching_shapes` (Softmax). -/
def constraint_matching_shapes (op : SOp) : Bool :=
  match op.ifm, op.ofm with
  | some t1, some t3 => t1.shape == t3.shape
  | _, _ => false

/-- `constraint_splitv_inferred`: `np.count_nonzero(sizes == -1) <= 1`
(with `sizes = None` the numpy comparison is scalar `False`, counting
zero). -/
def constraint_splitv_inferred (op : SOp) : Bool :=
  match op.ifm2 with
  | some t =>
      match t.values with
      | some l => decide (l.countP (fun v => v == -1) ≤ 1)
      | none => true
  | none => false

/-- `constraint_axis_exists` (Concat). -/
def constraint_axis_exists (op : SOp) : Bool :=
  op.attrs.axis.isSome

/-- `constraint_axis_valid` (a missing axis key would raise; modelled
as failing, unreachably behind `constraint_axis_exists`). -/
def constraint_axis_valid (op : SOp) : Bool :=
  match op.ofm, op.attrs.axis with
  | some t3, some ax =>
      let dims := (t3.shape.length : Int)
      let ax' := if ax < 0 then ax + dims else ax
      decide (0 ≤ ax') && decide (ax' < dims)
  | _, _ => false

/-- `constraint_matching_dimensionality` (Concat). -/
def constraint_matching_dimensionality (op : SOp) : Bool :=
  match op.ofm with
  | some t3 =>
      (optTensors op.inputs).all (fun t => t.shape.length == t3.shape.length)
  | none => false

/-- `constraint_valid_dimensions` (Concat): on every axis other than
the concatenation axis each input dimension matches the OFM
dimension. -/
def constraint_valid_dimensions (op : SOp) : Bool :=
  match op.ofm, op.attrs.axis with
  | some t3, some ax =>
      let dims := (t3.shape.length : Int)
      let ax' := if ax < 0 then ax + dims else ax
      (optTensors op.inputs).all (fun t =>
        (List.range t3.shape.length).all (fun dim =>
          if (dim : Int) == ax' then true
          else decide (t.shapeAt dim = t3.shapeAt dim)))
  | _, _ => false

/-! ### StridedSlice constraints -/

/-- `constraint_stridedslice_input_count`. -/
def constraint_stridedslice_input_count (op : SOp) : Bool :=
  op.inputs.length == 4

/-- `constraint_stridedslice_inputs_const` (the 4-tuple unpacking and
the attribute accesses would raise on malformed input; modelled as
failing). -/
def constraint_stridedslice_inputs_const (op : SOp) : Bool :=
  match op.inputs with
  | [_, some b, some e, some st] =>
      b.values.isSome && e.values.isSome && st.values.isSome
  | _ => false

/-- `constraint_stridedslice_stride_values`. -/
def constraint_stridedslice_stride_values (op : SOp) : Bool :=
  match op.inputs.getD 3 none with
  | some st =>
      match st.values with
      | some l => l.all (fun v => v == 1)
      | none => false
  | none => false

/-- `constraint_ellipsis_mask`. -/
def constraint_ellipsis_mask (op : SOp) : Bool :=
  match op.attrs.ellipsis_mask with
  | some v => v == 0
  | none => false

/-- `constraint_axis_masks`. -/
def constraint_axis_masks (op : SOp) : Bool :=
  match op.attrs.new_axis_mask, op.attrs.shrink_axis_mask with
  | some na, some sa => (na == 0) || (sa == 0)
  | _, _ => false

/-- Modelled from the spec: `get_slice_offsets` from operation.py (not
in the snapshot): the begin offsets start from zero, the end offsets
from the input shape; on every axis whose mask bit is clear the offset
is taken from the offset tensor, adding the input dimension to negative
values.  Validated against the StridedSlice unit tests. -/
def get_slice_offsets (inputShape : List Int) (offsetValues : List Int)
    (offsetMask : Int) (isBegin : Bool) : List Int :=
  (List.range inputShape.length).map (fun idx =>
    if (offsetMask.toNat).testBit idx then
      (if isBegin then 0 else inputShape.getD idx 0)
    else
      let v := offsetValues.getD idx 0
      if v < 0 then v + inputShape.getD idx 0 else v)

/-- `constraint_slice_ranges`: every effective end offset exceeds the
corresponding effective begin offset. -/
def constraint_slice_ranges (op : SOp) : Bool :=
  match op.inputs with
  | [some ifm, some b, some e, _] =>
      match b.values, e.values, op.attrs.begin_mask, op.attrs.end_mask with
      | some bv, some ev, some bm, some em =>
          let shp := ifm.shape.map (fun d => d.getD 0)
          let offsetBegin := get_slice_offsets shp bv bm true
          let offsetEnd := get_slice_offsets shp ev em false
          (offsetBegin.zip offsetEnd).all (fun p => decide (0 < p.2 - p.1))
      | _, _, _, _ => false
  | _ => false

/-! ### Elementwise constraints -/

/-- `constraint_matching_inputs_types`. -/
def constraint_matching_inputs_types (op : SOp) : Bool :=
  match op.ifm, op.ifm2 with
  | some t1, some t2 => t1.dtype == t2.dtype
  | _, _ => false

/-- `constraint_matching_signed`. -/
def constraint_matching_signed (op : SOp) : Bool :=
  match op.ifm, op.ofm with
  | some t1, some t3 => if t1.dtype.isSigned then t3.dtype.isSigned else true
  | _, _ => false

/-- `constraint_unsigned_valid`. -/
def constraint_unsigned_valid (op : SOp) : Bool :=
  match op.ifm, op.ofm with
  | some t1, some t3 =>
      if t1.dtype.isUnsigned then (t1.dtype == t3.dtype) || (t3.dtype == DataType.int32)
      else true
  | _, _ => false

/-- `constraint_inputs_int32`. -/
def constraint_inputs_int32 (op : SOp) : Bool :=
  match op.ifm, op.ifm2 with
  | some t1, some t2 => (t1.dtype == DataType.int32) && (t2.dtype == DataType.int32)
  | _, _ => false

/-- `constraint_output_int32`. -/
def constraint_output_int32 (op : SOp) : Bool :=
  match op.ofm with
  | some t3 => t3.dtype == DataType.int32
  | none => false

/-- Modelled from the spec: `check_quantized_tens_scaling_equal`
(imported from tensor.py but absent from the snapshot): the Min/Max
inputs must share the OFM quantization. -/
def check_quantized_tens_scaling_equal (a b : Option STensor) : Bool :=
  match a, b with
  | some ta, some tb => ta.quantization == tb.quantization
  | _, _ => false

/-- `constraint_matching_quantization_parameters`. -/
def constraint_matching_quantization_parameters (op : SOp) : Bool :=
  check_quantized_tens_scaling_equal op.ofm op.ifm &&
    check_quantized_tens_scaling_equal op.ofm op.ifm2

/-- `constraint_elemwise_batch_size`: more-than-2D inputs must have
batch 1. -/
def constraint_elemwise_batch_size (op : SOp) : Bool :=
  (optTensors [op.ifm, op.ifm2]).all (fun t =>
    !(decide (2 < t.shape.length) && !(t.shapeAt 0 == some 1)))

/-- `constraint_matching_either_shapes`: at least one input shape must
equal the OFM shape (`None` compares unequal). -/
def constraint_matching_either_shapes (op : SOp) : Bool :=
  match op.ifm, op.ofm with
  | some t1, some t3 =>
      (t1.shape == t3.shape) ||
        (match op.ifm2 with
         | some t2 => t2.shape == t3.shape
         | none => false)
  | _, _ => false

/-- `l[-n:]` for `0 < n` (the last `n` elements, or the whole list). -/
def sliceLast {α : Type} (l : List α) (n : Nat) : List α :=
  l.drop (l.length - n)

/-- `constraint_broadcast_shapes`: along the aligned trailing
dimensions of the two inputs, the dimensions agree or one is 1, and the
output dimension is their maximum. -/
def constraint_broadcast_shapes (op : SOp) : Bool :=
  match op.ifm, op.ofm with
  | some t1, some t3 =>
      match op.ifm2 with
      | none => true
      | some t2 =>
          let size := min t1.shape.length t2.shape.length
          ((sliceLast t1.shape size).zip
              ((sliceLast t2.shape size).zip (sliceLast t3.shape size))).all
            (fun x =>
              match x.1, x.2.1, x.2.2 with
              | some i, some i2, some o =>
                  ((i == i2) || (i == 1) || (i2 == 1)) && (o == max i i2)
              | _, _, _ => false)
  | _, _ => false

/-- `constraint_alpha_valid` (LeakyRelu). -/
def constraint_alpha_valid (op : SOp) : Bool :=
  match op.attrs.alpha with
  | some a => a.geZero
  | none => false

/-! ### The checker -/

/-- The ordered generic constraints of `SupportedOperators.__init__`. -/
def generic_constraints : List (SOp → Bool) :=
  [constraint_tens_no_dynamic,
   constraint_tens_defined_shape,
   constraint_tens_output_scalar,
   constraint_tens_input_scalar,
   constraint_tens_shape_size,
   constraint_tens_dtype,
   constraint_tens_int32_ops,
   constraint_tens_dimension,
   constraint_tens_quant_none_check,
   constraint_tens_quant_scale,
   constraint_tens_quant_per_axis,
   constraint_faf]

/-- The per-kind constraint registry of `SupportedOperators.__init__`
(the order within the list does not affect the conjunction). -/
def specific_constraints (t : OpType) : List (SOp → Bool) :=
  (if convolution_like_ops.contains t then
    [constraint_stride_type, constraint_stride_range,
     constraint_dilation_type, constraint_dilation_range,
     constraint_dilated_height_range, constraint_dilated_product_range,
     constraint_weights_type, constraint_weights_const, constraint_weights_limit,
     constraint_bias_type, constraint_bias_40bit, constraint_batch_size]
   else []) ++
  (if depthwise_convolution_ops.contains t then [constraint_depth_multiplier] else []) ++
  (if transpose_convolution_ops.contains t then
    [constraint_tconv_stride, constraint_tconv_same, constraint_tconv_valid]
   else []) ++
  (if pooling_ops.contains t then
    [constraint_batch_size, constraint_stride_type, constraint_stride_range]
   else []) ++
  (if avg_pooling_ops.contains t then
    [constraint_matching_in_out_types, constraint_filter_type, constraint_filter_range,
     constraint_filter_height_range_valid_pad, constraint_filter_product_range_valid_pad]
   else []) ++
  (if max_pooling_ops.contains t then
    [constraint_matching_in_out_types, constraint_filter_type,
     constraint_filter_height_range, constraint_filter_product_range]
   else []) ++
  (if relu_ops.contains t then [constraint_quant_scale_inf] else []) ++
  (if resizing_ops.contains t then [constraint_resize] else []) ++
  (if fc_vector_products.contains t then
    [constraint_weights_type, constraint_weights_const,
     constraint_bias_type, constraint_bias_40bit]
   else []) ++
  (if t == OpType.Concat || t == OpType.ConcatTFLite then
    [constraint_axis_exists, constraint_axis_valid,
     constraint_matching_dimensionality, constraint_valid_dimensions]
   else []) ++
  (if elem_wise_main_ops.contains t then
    [constraint_elemwise_batch_size, constraint_matching_either_shapes]
   else []) ++
  (if unary_elem_wise_main_ops.contains t then [constraint_matching_in_out_types] else []) ++
  (if binary_elem_wise_min_max_ops.contains t then
    [constraint_matching_in_out_types, constraint_matching_quantization_parameters,
     constraint_broadcast_shapes]
   else []) ++
  (if binary_elem_wise_add_mul_sub.contains t then
    [constraint_matching_inputs_types, constraint_matching_signed,
     constraint_unsigned_valid, constraint_broadcast_shapes]
   else []) ++
  (if binary_elem_wise_shift_ops.contains t then
    [constraint_inputs_int32, constraint_broadcast_shapes]
   else []) ++
  (if t == OpType.SHL then [constraint_output_int32] else []) ++
  (if t == OpType.CLZ then [constraint_output_int32] else []) ++
  (if t == OpType.Softmax then
    [constraint_matching_shapes, constraint_matching_in_out_types,
     constraint_beta_value_range]
   else []) ++
  (if t == OpType.SplitV then [constraint_splitv_inferred] else []) ++
  (if t == OpType.StridedSlice then
    [constraint_stridedslice_input_count, constraint_stridedslice_inputs_const,
     constraint_stridedslice_stride_values, constraint_ellipsis_mask,
     constraint_axis_masks, constraint_slice_ranges]
   else []) ++
  (if t == OpType.LeakyRelu then [constraint_alpha_valid] else [])

/-- `SupportedOperators.is_operator_supported`: the operator kind is in
the supported set and every generic and kind-specific constraint
passes. -/
def is_operator_supported (op : SOp) : Bool :=
  supported_operators.contains op.type &&
    (generic_constraints ++ specific_constraints op.type).all (fun c => c op)

/-! ### Concrete checker inputs -/

/-- Default quantization: finite scale 1.0, zero point 0. -/
def exQuant : QuantParams := ⟨some (.scalar (.finite 1)), .scalar 0⟩

/-- A quantized 1x1x1x1 uint8 feature map. -/
def exFeatureMap : STensor :=
  ⟨[some 1, some 1, some 1, some 1], .uint8, none, none, none, some exQuant⟩

/-- A constant 1x1x1x1 uint8 weight tensor with value 0. -/
def exWeights : STensor :=
  ⟨[some 1, some 1, some 1, some 1], .uint8, some [0], some [0], some [[[[0]]]],
    some exQuant⟩

/-- An int64 bias tensor with value 0 and no quantization record. -/
def exBias : STensor :=
  ⟨[some 1], .int64, some [0], some [0], none, none⟩

/-- A Conv2DBias operator with stride 1x1, uint8 feature maps and
weights, and an int64 bias without quantization: the checker accepts
it, yet the bias violates the dtype and quantization conditions of the
claim. -/
def exC1Op : SOp :=
  { type := .Conv2DBias
    inputs := [some exFeatureMap, some exWeights, some exBias]
    outputs := [some exFeatureMap]
    ifm := some exFeatureMap
    weights := some exWeights
    bias := some exBias
    ofm := some exFeatureMap
    attrs := { stride_w := some (.int 1), stride_h := some (.int 1) } }

/-- A tensor with the given integer shape (for the elementwise shape
examples). -/
def shapeTensor (s : List Int) : STensor :=
  ⟨s.map some, .uint8, none, none, none, some exQuant⟩

/-- A binary elementwise operator with the given IFM, IFM2 and OFM
shapes. -/
def mkElemOp (t : OpType) (s1 s2 s3 : List Int) : SOp :=
  { type := t
    inputs := [some (shapeTensor s1), some (shapeTensor s2)]
    outputs := [some (shapeTensor s3)]
    ifm := some (shapeTensor s1)
    ifm2 := some (shapeTensor s2)
    ofm := some (shapeTensor s3) }

/-- Add of `[1, 4]` and `[4, 4]` producing `[4, 4]`. -/
def exAddOk : SOp := mkElemOp .Add [1, 4] [4, 4] [4, 4]

/-- Add of `[1, 1, 4, 1]` and `[1, 4, 1, 16]` producing
`[1, 4, 4, 16]`. -/
def exAddBad : SOp := mkElemOp .Add [1, 1, 4, 1] [1, 4, 1, 16] [1, 4, 4, 16]

/-! ## pass_packing.py: the pass packer

The packer works on a mutable graph of operators and tensors; here the
graph is an arena of numeric ids (`numOps`/`numTens` are the allocation
bounds, used when fresh ops and tensors are synthesized).  Operator
kinds are strings, as in the source.  Python assertions become error
values of `PackErr`; the recursive graph traversal is bounded by a fuel
parameter (exhaustion is the error `outOfFuel`).  Pass names,
`op.scheduled_pass` back-pointers, the `weight_tensor`/`scale_tensor`
fields and `build_pass_links` (nn_graph.py, not in the snapshot) are
not consulted by any claim and are not modelled. -/

namespace Pack

/-- Modelled from the spec: `NpuBlockType` of nn_graph.py (module not
in the snapshot). -/
inductive NpuBlockType
  | Default
  | ConvolutionMxN
  | ConvolutionDepthWise
  | Pooling
  | ElementWise
  | ReduceSum
  | VectorProduct
  deriving DecidableEq, Repr

/-- Modelled from the spec: `PassPlacement` of nn_graph.py. -/
inductive PassPlacement
  | Unknown
  | Cpu
  | Npu
  | MemoryOnly
  | StartupInit
  deriving DecidableEq, Repr

/-- The bits of the `PassFlags` enum.Flag bitmask, one Bool per flag
value (Empty is the all-false mask). -/
structure PassFlags where
  pre : Bool := false
  main : Bool := false
  post : Bool := false
  mac : Bool := false
  dma : Bool := false
  elementWise : Bool := false
  npu : Bool := false
  cpu : Bool := false
  startupInit : Bool := false
  memoryOnly : Bool := false
  postFusingLimited : Bool := false
  deriving DecidableEq, Repr

/-- `PassFlags.Empty`. -/
def PassFlags.empty : PassFlags := {}

/-- Bitwise or of two flag masks. -/
def PassFlags.union (a b : PassFlags) : PassFlags :=
  ⟨a.pre || b.pre, a.main || b.main, a.post || b.post, a.mac || b.mac,
    a.dma || b.dma, a.elementWise || b.elementWise, a.npu || b.npu,
    a.cpu || b.cpu, a.startupInit || b.startupInit, a.memoryOnly || b.memoryOnly,
    a.postFusingLimited || b.postFusingLimited⟩

/-- Bitwise and of two flag masks. -/
def PassFlags.inter (a b : PassFlags) : PassFlags :=
  ⟨a.pre && b.pre, a.main && b.main, a.post && b.post, a.mac && b.mac,
    a.dma && b.dma, a.elementWise && b.elementWise, a.npu && b.npu,
    a.cpu && b.cpu, a.startupInit && b.startupInit, a.memoryOnly && b.memoryOnly,
    a.postFusingLimited && b.postFusingLimited⟩

/-- `a & ~b`. -/
def PassFlags.diff (a b : PassFlags) : PassFlags :=
  ⟨a.pre && !b.pre, a.main && !b.main, a.post && !b.post, a.mac && !b.mac,
    a.dma && !b.dma, a.elementWise && !b.elementWise, a.npu && !b.npu,
    a.cpu && !b.cpu, a.startupInit && !b.startupInit, a.memoryOnly && !b.memoryOnly,
    a.postFusingLimited && !b.postFusingLimited⟩

/-- Whether the mask is `PassFlags.Empty` (falsiness of the flag
value). -/
def PassFlags.isEmpty (a : PassFlags) : Bool :=
  !a.pre && !a.main && !a.post && !a.mac && !a.dma && !a.elementWise && !a.npu &&
    !a.cpu && !a.startupInit && !a.memoryOnly && !a.postFusingLimited

/-! ### The operator-kind sets of pass_packing.py -/

def npu_pre_ops : List String := ["QuantizedResizeBilinear", "SplitSliceRead"]

def mac_main_ops : List String :=
  ["Conv2DBiasAct", "Conv2D", "QuantizedConv2D", "Conv2DBackpropInputSwitched",
   "DepthwiseConv2dBiasAct", "DepthwiseConv2dNative", "QuantizedDepthwiseConv2D",
   "QuantizedMatMul", "MatMul", "FullyConnectedAct", "BlockLSTM",
   "QuantizedMaxPool", "QuantizedAvgPool", "AvgPool", "MaxPool", "AvgPoolAct",
   "MaxPoolAct"]

def binary_elem_wise_main_ops : List String :=
  ["AddAct", "MulAct", "SubAct", "QuantizedAdd", "QuantizedSub", "QuantizedMul",
   "Mul", "Add", "Sub", "Minimum", "Maximum"]

def unary_elem_wise_main_ops : List String := ["LeakyRelu", "Abs"]

def elem_wise_main_ops : List String :=
  binary_elem_wise_main_ops ++ unary_elem_wise_main_ops

def activation_ops : List String :=
  ["QuantizedRelu", "QuantizedRelu1", "QuantizedRelu6", "Relu", "Relu6",
   "ReluN1To1"]

def npu_post_ops : List String :=
  activation_ops ++
    ["Mul", "Add", "QuantizedBiasAdd", "Requantize", "QuantizedBatchNorm",
     "BiasAdd", "FusedBatchNorm"]

def npu_post_fuse_limited_ops : List String := ["ConcatSliceWrite", "Sigmoid", "Tanh"]

def elem_wise_ops : List String :=
  elem_wise_main_ops ++ activation_ops ++ ["Sigmoid", "Tanh"]

def quantization_ops : List String := ["Dequantize", "QuantizeV2", "Max", "Min"]

def cpu_ops : List String :=
  ["Softmax", "QuantizedSoftmax", "LRN", "Shape", "QuantizedPad", "Pad", "AddN"] ++
    quantization_ops

def npu_dma_ops : List String := ["DMA"]

def startup_init_ops : List String := ["Const", "VariableV2", "Placeholder", "SubgraphInput"]

def memory_only_ops : List String := ["Squeeze", "Reshape", "QuantizedReshape", "ExpandDims"]

/-- One row of the classification table: the operator set (`none` is
the wildcard fallback), the incompatible flags, the flags to set and the
flags to clear. -/
structure PackRow where
  opsSet : Option (List String)
  incompatiblePackFlags : PassFlags
  flagsToSet : PassFlags
  flagsToClear : PassFlags
  deriving DecidableEq

/-- `test_sequence`: the ordered classification table. -/
def test_sequence : List PackRow :=
  [⟨some npu_post_ops,
    { cpu := true, memoryOnly := true, pre := true, main := true },
    { npu := true, post := true }, PassFlags.empty⟩,
   ⟨some npu_post_fuse_limited_ops,
    { cpu := true, memoryOnly := true, pre := true, main := true },
    { npu := true, postFusingLimited := true }, PassFlags.empty⟩,
   ⟨some mac_main_ops,
    { cpu := true, memoryOnly := true, elementWise := true, pre := true,
      main := true, postFusingLimited := true },
    { npu := true, mac := true, main := true }, PassFlags.empty⟩,
   ⟨some elem_wise_main_ops,
    { cpu := true, memoryOnly := true, mac := true, pre := true,
      main := true, postFusingLimited := true },
    { npu := true, elementWise := true, main := true }, PassFlags.empty⟩,
   ⟨some npu_pre_ops,
    { cpu := true, memoryOnly := true },
    { npu := true, mac := true, pre := true, elementWise := true }, PassFlags.empty⟩,
   ⟨some npu_dma_ops,
    { cpu := true, memoryOnly := true },
    { npu := true, dma := true }, PassFlags.empty⟩,
   ⟨some startup_init_ops,
    { npu := true, cpu := true, memoryOnly := true },
    { startupInit := true, main := true }, PassFlags.empty⟩,
   ⟨some memory_only_ops,
    { npu := true, cpu := true },
    { memoryOnly := true, main := true }, PassFlags.empty⟩,
   ⟨some cpu_ops,
    { npu := true, memoryOnly := true, main := true },
    { cpu := true, main := true }, PassFlags.empty⟩,
   ⟨none,
    { npu := true, memoryOnly := true, main := true },
    { cpu := true, main := true }, PassFlags.empty⟩]

/-! ### The graph arena -/

/-- The packer's view of the graph: operator kind strings, input and
output tensor id lists, the `run_on_npu` marker and the
`attrs.get("npu_block_type", NpuBlockType.Default)` value per operator;
producer (`tens.ops`) and consumer (`tens.consumer_list`) op id lists
and the purpose per tensor.  `numOps` and `numTens` are the arena
bounds used to allocate the ids of synthesized ops and tensors. -/
structure PGraph where
  numOps : Nat
  numTens : Nat
  opType : Nat → String
  opInputs : Nat → List Nat
  opOutputs : Nat → List Nat
  opRunOnNpu : Nat → Bool
  opBlock : Nat → NpuBlockType
  tensOps : Nat → List Nat
  tensCons : Nat → List Nat
  tensPurpose : Nat → TensorPurpose

/-- A pass as built by `build_pass` (name, scheduled-pass pointers and
weight/scale tensors are not modelled). -/
structure PPass where
  placement : PassPlacement
  isElementWise : Bool
  npuBlockType : NpuBlockType
  ops : List Nat
  primaryOp : Option Nat
  inputs : List Nat
  intermediates : List Nat
  outputs : List Nat
  ifmTensor : Option Nat
  ifm2Tensor : Option Nat
  ofmTensor : Option Nat
  deriving DecidableEq, Repr

/-- The Python assertions and runtime errors of pass_packing.py, plus
fuel exhaustion of the bounded traversal. -/
inductive PackErr
  | outOfFuel
  | visitOpRefcount
  | visitTensRefcount
  | indexError
  | blockTypeConflict
  | primaryOpConflict
  | inputsEmpty
  | ifmPurpose
  | tensNone
  | placementConflict
  | placementUnknown
  | npuNoOfm
  deriving DecidableEq, Repr

/-- The traversal state of `pack_into_passes`: the (mutable) graph, the
two visit-refcount maps, the passes built so far (most recent first, so
that the final list equals `list(reversed(reverse_pass_list))`, i.e.
`sg.passes`), and the startup op list. -/
structure PackSt where
  g : PGraph
  visitOpRef : Nat → Nat
  visitTensRef : Nat → Nat
  passes : List PPass
  startupList : List Nat

/-- The loop state of `build_pass`.  `revOps` and `revIntermediates`
are built by prepending, so that at the end of the loop they equal the
source's `list(reversed(reverse_ops_list))` (i.e. `ops_list`) and
`list(reversed(reverse_intermediates))`. -/
structure BPState where
  revOps : List Nat
  currFlags : PassFlags
  npuBlockType : NpuBlockType
  revIntermediates : List Nat
  inputSet : List Nat
  ifmTensor : Option Nat
  primaryOp : Option Nat
  queue : List (Nat × Option Nat)

/-- Set insertion for the `input_set` (only membership is ever
observed; insertion order is kept for determinism). -/
def insertSet (x : Nat) (l : List Nat) : List Nat :=
  if l.contains x then l else l ++ [x]

/-- The row scan of `build_pass`: the first row of `test_sequence`
whose operator set contains the current op (or is the wildcard), whose
incompatible flags are disjoint from the accumulated flags, and which
does not set Npu for an op not marked `run_on_npu` (the `continue`). -/
def findRow (g : PGraph) (o : Nat) (flags : PassFlags) : Option PackRow :=
  test_sequence.find? fun row =>
    (match row.opsSet with
     | none => true
     | some s => s.contains (g.opType o)) &&
    (PassFlags.inter flags row.incompatiblePackFlags).isEmpty &&
    (!row.flagsToSet.npu || g.opRunOnNpu o)

/-- The `can_pack` test for one input of the current op: its single
producer, provided every output of that producer is consumed at most
once and only by the current op. -/
def canPackInput (g : PGraph) (curr_op inp : Nat) : Option Nat :=
  match g.tensOps inp with
  | [next_op] =>
      if (g.opOutputs next_op).all fun outp =>
          match g.tensCons outp with
          | [] => true
          | [c] => c == curr_op
          | _ => false
      then some next_op
      else none
  | _ => none

/-- The input scan at the end of the accepted-row body: packable
producers are queued, everything else lands in the input set (the
`assert inp is not None` cannot fail here since inputs are plain ids). -/
def processInputs (g : PGraph) (curr_op : Nat) (st : BPState) : BPState :=
  (g.opInputs curr_op).foldl
    (fun st inp =>
      match canPackInput g curr_op inp with
      | some next_op => { st with queue := st.queue ++ [(next_op, some inp)] }
      | none => { st with inputSet := insertSet inp st.inputSet })
    st

/-- The body executed when a row of `test_sequence` accepts the current
op: record the op, absorb a non-default npu_block_type (asserting
uniqueness of block type and primary op), update the flags, grab the
IFM tensor for compute rows (asserting it is a feature map), preserve
DMA outputs as intermediates, and scan the inputs. -/
def applyRow (g : PGraph) (curr_op : Nat) (tens : Option Nat) (row : PackRow)
    (st : BPState) : Except PackErr BPState := do
  let st1 := { st with revOps := curr_op :: st.revOps }
  let newBlock := g.opBlock curr_op
  let st2 ←
    if newBlock ≠ NpuBlockType.Default then do
      if st1.npuBlockType ≠ NpuBlockType.Default then throw PackErr.blockTypeConflict
      if st1.primaryOp.isSome then throw PackErr.primaryOpConflict
      pure { st1 with npuBlockType := newBlock, primaryOp := some curr_op }
    else pure st1
  let st3 := { st2 with
    currFlags := (st2.currFlags.diff row.flagsToClear).union row.flagsToSet }
  let st4 ←
    if row.flagsToSet.npu &&
        (row.flagsToSet.mac || row.flagsToSet.elementWise || row.flagsToSet.post ||
          row.flagsToSet.postFusingLimited) then do
      if (g.opInputs curr_op).length < 1 then throw PackErr.inputsEmpty
      let ifm ←
        if g.opType curr_op == "BlockLSTM" then
          match (g.opInputs curr_op).get? 3 with
          | some t => pure t
          | none => throw PackErr.indexError
        else
          match (g.opInputs curr_op).get? 0 with
          | some t => pure t
          | none => throw PackErr.indexError
      if g.tensPurpose ifm ≠ TensorPurpose.FeatureMap then throw PackErr.ifmPurpose
      pure { st3 with ifmTensor := some ifm }
    else pure st3
  let st5 :=
    if row.flagsToSet.dma then
      match tens with
      | some t => { st4 with revIntermediates := t :: st4.revIntermediates }
      | none => st4
    else st4
  pure (processInputs g curr_op st5)

/-- The while loop of `build_pass`, bounded by fuel: pop the queue,
skip ops already packed, run the first accepting row of
`test_sequence`, and on no accepting row register the carried tensor as
a pass input (asserting it is not None, i.e. the op was not a start
op). -/
def buildPassLoop (g : PGraph) : Nat → BPState → Except PackErr BPState
  | 0, _ => throw PackErr.outOfFuel
  | fuel + 1, st =>
      match st.queue with
      | [] => pure st
      | (curr_op, tens) :: rest =>
          let st := { st with queue := rest }
          if st.revOps.contains curr_op then buildPassLoop g fuel st
          else
            match findRow g curr_op st.currFlags with
            | some row => do
                let st ← applyRow g curr_op tens row st
                buildPassLoop g fuel st
            | none =>
                match tens with
                | none => throw PackErr.tensNone
                | some t =>
                    buildPassLoop g fuel { st with inputSet := insertSet t st.inputSet }

/-- The placement-assignment chain at the end of `build_pass`: each set
placement flag asserts no earlier flag already assigned a placement,
and at the end a placement must have been assigned. -/
def decidePlacement (flags : PassFlags) : Except PackErr PassPlacement := do
  let p := PassPlacement.Unknown
  let p ←
    if flags.npu then
      if p ≠ PassPlacement.Unknown then throw PackErr.placementConflict
      else pure PassPlacement.Npu
    else pure p
  let p ←
    if flags.cpu then
      if p ≠ PassPlacement.Unknown then throw PackErr.placementConflict
      else pure PassPlacement.Cpu
    else pure p
  let p ←
    if flags.memoryOnly then
      if p ≠ PassPlacement.Unknown then throw PackErr.placementConflict
      else pure PassPlacement.MemoryOnly
    else pure p
  let p ←
    if flags.startupInit then
      if p ≠ PassPlacement.Unknown then throw PackErr.placementConflict
      else pure PassPlacement.StartupInit
    else pure p
  if p = PassPlacement.Unknown then throw PackErr.placementUnknown
  pure p

/-- Functional update of an id-indexed map. -/
def updP {α : Type} (m : Nat → α) (k : Nat) (v : α) : Nat → α :=
  fun i => if i = k then v else m i

/-- `create_primary_op`: when some packed op is a pre/post/fuse-limited
op, synthesize a fresh 1x1 AvgPool (fresh op id `g.numOps`, fresh
output tensor id `g.numTens` cloning the purpose of the first input of
the first packed op), splice it before that input (appending the
avgpool to the input's consumer list without removing the rewired
consumer), and prepend it to the ops list.  Returns the updated graph,
the avgpool id and the updated ops list, or `none` when no primary op
is needed.  Only the attributes the packer later consults
(npu_block_type) are modelled. -/
def create_primary_op (g : PGraph) (opsList : List Nat) :
    Except PackErr (Option (PGraph × Nat × List Nat)) := do
  if opsList.any fun o =>
      (npu_pre_ops ++ npu_post_ops ++ npu_post_fuse_limited_ops).contains (g.opType o) then
    match opsList with
    | [] => pure none
    | op :: _ =>
        match g.opInputs op with
        | [] => throw PackErr.indexError
        | inp :: restInputs =>
            let A := g.numOps
            let Y := g.numTens
            let g2 : PGraph := {
              numOps := g.numOps + 1
              numTens := g.numTens + 1
              opType := updP g.opType A "AvgPool"
              opInputs := updP (updP g.opInputs A [inp]) op (Y :: restInputs)
              opOutputs := updP g.opOutputs A [Y]
              opRunOnNpu := updP g.opRunOnNpu A false
              opBlock := updP g.opBlock A NpuBlockType.Pooling
              tensOps := updP g.tensOps Y [A]
              tensCons := updP (updP g.tensCons inp (g.tensCons inp ++ [A])) Y [op]
              tensPurpose := updP g.tensPurpose Y (g.tensPurpose inp) }
            pure (some (g2, A, A :: opsList))
  else pure none

/-- The `ordered_input_list` / `input_refcounts` computation: for every
packed op in order, every input lying in the input set is counted, with
first occurrences appended to the ordered list.  The result pairs each
input (in first-occurrence order, matching Python dict iteration) with
its refcount. -/
def addInputRef (l : List (Nat × Nat)) (t : Nat) : List (Nat × Nat) :=
  if l.any (fun p => p.1 == t) then
    l.map fun p => if p.1 == t then (p.1, p.2 + 1) else p
  else l ++ [(t, 1)]

def computeInputRefcounts (g : PGraph) (opsList : List Nat) (inputSet : List Nat) :
    List (Nat × Nat) :=
  opsList.foldl
    (fun l o =>
      (g.opInputs o).foldl
        (fun l inp => if inputSet.contains inp then addInputRef l inp else l) l)
    []

/-- The result of the non-recursive part of `build_pass`: the possibly
extended graph, the possibly bumped visit_tensor refcounts, the
constructed pass and the input refcounts still to be visited. -/
structure BPCore where
  g : PGraph
  vtr : Nat → Nat
  ps : PPass
  inputRefcounts : List (Nat × Nat)

/-- Everything `build_pass` does except appending the pass to the
reverse pass list and running the final `visit_tensor` calls: the
classification loop, the ambidextrous element-wise adjustment, the
placement chain, primary-op synthesis, input ordering and the pass
construction (names, scheduled_pass pointers and the weight/scale
tensor lookups are not modelled). -/
def buildPassCore (g : PGraph) (vtr : Nat → Nat) (fuel : Nat)
    (startOps : List Nat) (ofmTensor : Option Nat) : Except PackErr BPCore := do
  let st0 : BPState := {
    revOps := [], currFlags := PassFlags.empty, npuBlockType := NpuBlockType.Default,
    revIntermediates := [], inputSet := [], ifmTensor := none, primaryOp := none,
    queue := startOps.map fun o => (o, none) }
  let stL ← buildPassLoop g fuel st0
  let st :=
    if stL.currFlags.npu && !(stL.currFlags.elementWise || stL.currFlags.mac) then
      { stL with currFlags := stL.currFlags.union { elementWise := true } }
    else stL
  let isElementWise := st.revOps.all fun o =>
    elem_wise_ops.contains (g.opType o) || npu_dma_ops.contains (g.opType o)
  let placement ← decidePlacement st.currFlags
  let opsList := st.revOps
  let intermediates := st.revIntermediates
  let res ←
    match st.primaryOp with
    | some _ => pure (g, vtr, opsList, st.primaryOp, st.npuBlockType, st.inputSet)
    | none => do
        match ← create_primary_op g opsList with
        | none => pure (g, vtr, opsList, none, st.npuBlockType, st.inputSet)
        | some (gA, A, opsListA) => do
            let inp0 ←
              match (gA.opInputs A).head? with
              | some t => pure t
              | none => throw PackErr.indexError
            let vtrA := updP vtr inp0 (vtr inp0 + 1)
            let iset := (gA.opInputs A).foldl (fun s t => insertSet t s) st.inputSet
            pure (gA, vtrA, opsListA, some A, gA.opBlock A, iset)
  let (g2, vtr2, opsList2, primaryOp2, blockType2, inputSet2) := res
  let inputRefcounts := computeInputRefcounts g2 opsList2 inputSet2
  let orderedInputs := inputRefcounts.map Prod.fst
  let lastOp ←
    match opsList2.getLast? with
    | some o => pure o
    | none => throw PackErr.indexError
  let outputs := g2.opOutputs lastOp
  let ifmPair ←
    if match primaryOp2 with
       | some p => binary_elem_wise_main_ops.contains (g2.opType p)
       | none => false then
      match orderedInputs with
      | [] => throw PackErr.indexError
      | [i0] => pure (some i0, some i0)
      | i0 :: i1 :: _ => pure (some i0, some i1)
    else pure (st.ifmTensor, (none : Option Nat))
  if placement = PassPlacement.Npu ∧ ofmTensor = none then throw PackErr.npuNoOfm
  let ps : PPass := {
    placement := placement, isElementWise := isElementWise,
    npuBlockType := blockType2, ops := opsList2, primaryOp := primaryOp2,
    inputs := orderedInputs, intermediates := intermediates, outputs := outputs,
    ifmTensor := ifmPair.1, ifm2Tensor := ifmPair.2, ofmTensor := ofmTensor }
  pure ⟨g2, vtr2, ps, inputRefcounts⟩

/-- The modelled `op.get_ifm_ifm2_weights_ofm()[3]`-with-fallback of
`visit_op`.  Modelled from the spec: the OFM is the first output when
one exists; `op.outputs[0]` on an empty output list raises (IndexError),
matching the fallback in operation.py (module not in the snapshot). -/
def ofmOf (g : PGraph) (o : Nat) : Option Nat := (g.opOutputs o).head?

/-! The recursive traversal.  The six mutually recursive procedures of
the source (`visit_tensor`, its loop over a tensor's producers,
`visit_op`, `build_pass` with its final visit_tensor replay, and the
two replay loops) are merged into one fueled dispatcher over a request
type, so that the recursion is structural on the fuel and concrete runs
evaluate by reduction; the named wrappers below restore the source
names. -/

/-- The pending-call kinds of the traversal. -/
inductive VisitReq
  | tensor (t : Nat)
  | opsList (ops : List Nat) (tens : Nat)
  | op (o : Nat) (ignored : Nat)
  | pass (startOps : List Nat) (ofm : Option Nat)
  | inputRefcounts (pairs : List (Nat × Nat))
  | tensorTimes (t : Nat) (n : Nat)

/-- One fueled dispatcher for the recursive traversal; each case is
the body of the corresponding source procedure, with recursive calls
re-entering the dispatcher on smaller fuel. -/
def visitStep : Nat → PackSt → VisitReq → Except PackErr PackSt
  | 0, _, _ => throw PackErr.outOfFuel
  | fuel + 1, pst, req =>
      match req with
      | VisitReq.tensor tens =>
          let newCount := pst.visitTensRef tens + 1
          let pst1 := { pst with visitTensRef := updP pst.visitTensRef tens newCount }
          if newCount > (pst1.g.tensCons tens).length then
            throw PackErr.visitTensRefcount
          else if newCount = (pst1.g.tensCons tens).length then
            visitStep fuel pst1 (VisitReq.opsList ((pst1.g.tensOps tens).reverse) tens)
          else pure pst1
      | VisitReq.opsList ops tens =>
          match ops with
          | [] => pure pst
          | o :: rest => do
              let pst1 ← visitStep fuel pst (VisitReq.op o tens)
              visitStep fuel pst1 (VisitReq.opsList rest tens)
      | VisitReq.op op _ignored =>
          let c1 := pst.visitOpRef op + 1
          let c2 :=
            if c1 = 1 then
              c1 + (pst.g.opOutputs op).countP fun t => (pst.g.tensCons t).length = 0
            else c1
          let pst1 := { pst with visitOpRef := updP pst.visitOpRef op c2 }
          if c2 > (pst1.g.opOutputs op).length then throw PackErr.visitOpRefcount
          else if c2 = (pst1.g.opOutputs op).length then
            if startup_init_ops.contains (pst1.g.opType op) then
              pure { pst1 with startupList := pst1.startupList ++ [op] }
            else
              match ofmOf pst1.g op with
              | some t => visitStep fuel pst1 (VisitReq.pass [op] (some t))
              | none => throw PackErr.indexError
          else pure pst1
      | VisitReq.pass startOps ofmTensor => do
          let core ← buildPassCore pst.g pst.visitTensRef fuel startOps ofmTensor
          let pst1 := { pst with
            g := core.g, visitTensRef := core.vtr, passes := core.ps :: pst.passes }
          visitStep fuel pst1 (VisitReq.inputRefcounts core.inputRefcounts)
      | VisitReq.inputRefcounts pairs =>
          match pairs with
          | [] => pure pst
          | (t, n) :: rest => do
              let pst1 ← visitStep fuel pst (VisitReq.tensorTimes t n)
              visitStep fuel pst1 (VisitReq.inputRefcounts rest)
      | VisitReq.tensorTimes t n =>
          match n with
          | 0 => pure pst
          | n + 1 => do
              let pst1 ← visitStep fuel pst (VisitReq.tensor t)
              visitStep fuel pst1 (VisitReq.tensorTimes t n)

/-- `visit_tensor` of pack_into_passes. -/
def visit_tensor (fuel : Nat) (pst : PackSt) (tens : Nat) : Except PackErr PackSt :=
  visitStep fuel pst (VisitReq.tensor tens)

/-- `visit_op` of pack_into_passes (the second parameter is ignored,
as in the source). -/
def visit_op (fuel : Nat) (pst : PackSt) (op : Nat) (ignored : Nat) :
    Except PackErr PackSt :=
  visitStep fuel pst (VisitReq.op op ignored)

/-- `build_pass` of pack_into_passes: the pass construction
(`buildPassCore`) followed by appending the pass and the final
`visit_tensor` replay over the input refcounts. -/
def build_pass (fuel : Nat) (pst : PackSt) (startOps : List Nat)
    (ofmTensor : Option Nat) : Except PackErr PackSt :=
  visitStep fuel pst (VisitReq.pass startOps ofmTensor)

/-- `pack_into_passes` for one subgraph with the given list of output
tensors: visit every output tensor, then build the startup pass when
startup ops were collected, fixing up its outputs to the startup ops
first outputs.  The startup pass sits at a stable position from the
tail of the accumulated pass list (later visits may have prepended
further passes), namely the length the list had when it was pushed. -/
def pack_into_passes (g : PGraph) (outputTensors : List Nat) (fuel : Nat) :
    Except PackErr PackSt := do
  let pst0 : PackSt := ⟨g, fun _ => 0, fun _ => 0, [], []⟩
  let pst ← outputTensors.foldlM (fun pst t => visit_tensor fuel pst t) pst0
  if pst.startupList.isEmpty then pure pst
  else do
    let tailIdx := pst.passes.length
    let pst2 ← build_pass fuel pst pst.startupList none
    let newOutputs ← pst.startupList.mapM fun o =>
      match (pst2.g.opOutputs o).head? with
      | some t => Except.ok t
      | none => Except.error PackErr.indexError
    let idx := pst2.passes.length - 1 - tailIdx
    match pst2.passes.get? idx with
    | none => throw PackErr.indexError
    | some ps =>
        pure { pst2 with passes := pst2.passes.set idx { ps with outputs := newOutputs } }

/-- The number of operators of the graph that list tensor `t` among
their inputs (the spec sentence "every operator listing it among its
inputs" counted over the arena). -/
def countListers (g : PGraph) (t : Nat) : Nat :=
  (List.range g.numOps).countP fun o => (g.opInputs o).contains t

/-! ### Example graphs -/

/-- A graph with one DMA op: tensor 0 is DMAed by op 0 into tensor 1,
consumed by a CPU-side op 1 that is never packed (it keeps tensor 1
alive as a subgraph output consumer). -/
def dmaExGraph : PGraph := {
  numOps := 2
  numTens := 2
  opType := fun o => if o = 0 then "DMA" else "Foo"
  opInputs := fun o => if o = 0 then [0] else if o = 1 then [1] else []
  opOutputs := fun o => if o = 0 then [1] else []
  opRunOnNpu := fun o => o == 0
  opBlock := fun _ => NpuBlockType.Default
  tensOps := fun t => if t = 1 then [0] else []
  tensCons := fun t => if t = 0 then [0] else if t = 1 then [1] else []
  tensPurpose := fun _ => TensorPurpose.FeatureMap }

/-- The placement and primary op of every pass packed from
`dmaExGraph` with subgraph output tensor 1. -/
def dmaExPasses : List (PassPlacement × Option Nat) :=
  match pack_into_passes dmaExGraph [1] 12 with
  | Except.ok st => st.passes.map fun p => (p.placement, p.primaryOp)
  | Except.error _ => []

/-- A graph Placeholder (op 0) ⟶ tensor 0 ⟶ Relu (op 1) ⟶ tensor 1,
with a never-packed consumer op 2 keeping tensor 1 alive.  Packing the
Relu synthesizes an AvgPool primary op (id 3) with a fresh output
tensor (id 2) spliced before tensor 0. -/
def reluExGraph : PGraph := {
  numOps := 3
  numTens := 2
  opType := fun o => if o = 0 then "Placeholder" else if o = 1 then "Relu" else "Foo"
  opInputs := fun o => if o = 1 then [0] else if o = 2 then [1] else []
  opOutputs := fun o => if o = 0 then [0] else if o = 1 then [1] else []
  opRunOnNpu := fun o => o == 1
  opBlock := fun _ => NpuBlockType.Default
  tensOps := fun t => if t = 0 then [0] else if t = 1 then [1] else []
  tensCons := fun t => if t = 0 then [1] else if t = 1 then [2] else []
  tensPurpose := fun _ => TensorPurpose.FeatureMap }

/-- The consumer list of tensor 0 and its lister count in the graph
left behind by packing `reluExGraph` with output tensor 1. -/
def reluExConsumers : List Nat × Nat :=
  match pack_into_passes reluExGraph [1] 16 with
  | Except.ok st => (st.g.tensCons 0, countListers st.g 0)
  | Except.error _ => ([], 0)

/-- A graph where a startup-init Const op (op 1) consumes the output of
an npu_pre SplitSliceRead op (op 0): tensor 0 ⟶ SplitSliceRead ⟶
tensor 1 ⟶ Const ⟶ tensor 2, with a never-packed consumer op 2
keeping tensor 2 alive. -/
def constExGraph : PGraph := {
  numOps := 3
  numTens := 3
  opType := fun o => if o = 0 then "SplitSliceRead" else if o = 1 then "Const" else "Foo"
  opInputs := fun o => if o = 0 then [0] else if o = 1 then [1] else if o = 2 then [2] else []
  opOutputs := fun o => if o = 0 then [1] else if o = 1 then [2] else []
  opRunOnNpu := fun o => o == 0
  opBlock := fun _ => NpuBlockType.Default
  tensOps := fun t => if t = 1 then [0] else if t = 2 then [1] else []
  tensCons := fun t => if t = 0 then [0] else if t = 1 then [1] else [2]
  tensPurpose := fun _ => TensorPurpose.FeatureMap }

/-! ### Flag-state abstractions used by the packer invariants -/

/-- The flag state produced by the startup-init row: StartupInit and
Main set, nothing else. -/
def startupFlags : PassFlags := { startupInit := true, main := true }

/-- The normal-mode flag invariant: StartupInit clear and exactly one
of the groups Npu / Cpu-with-Main / MemoryOnly-with-Main set.  Under
this invariant the placement chain of `build_pass` assigns exactly one
placement. -/
def nokFlags (f : PassFlags) : Bool :=
  !f.startupInit &&
    ((f.npu && !f.cpu && !f.memoryOnly) ||
     (f.cpu && f.main && !f.npu && !f.memoryOnly) ||
     (f.memoryOnly && f.main && !f.npu && !f.cpu))

instance : Fintype PassPlacement :=
  ⟨⟨[PassPlacement.Unknown, PassPlacement.Cpu, PassPlacement.Npu,
     PassPlacement.MemoryOnly, PassPlacement.StartupInit], by decide⟩,
   fun x => by cases x <;> decide⟩

instance : DecidableEq (Except PackErr PassPlacement) := fun a b =>
  match a, b with
  | Except.ok x, Except.ok y =>
      if h : x = y then isTrue (h ▸ rfl) else isFalse fun he => h (Except.ok.inj he)
  | Except.error x, Except.error y =>
      if h : x = y then isTrue (h ▸ rfl) else isFalse fun he => h (Except.error.inj he)
  | Except.ok _, Except.error _ => isFalse fun he => Except.noConfusion he
  | Except.error _, Except.ok _ => isFalse fun he => Except.noConfusion he

/-- The placement assigned by the chain of `build_pass` when no
assertion fires: the first set flag among Npu, Cpu, MemoryOnly,
StartupInit. -/
def placementOf (f : PassFlags) : PassPlacement :=
  if f.npu then PassPlacement.Npu
  else if f.cpu then PassPlacement.Cpu
  else if f.memoryOnly then PassPlacement.MemoryOnly
  else if f.startupInit then PassPlacement.StartupInit
  else PassPlacement.Unknown

/-- Invariant of the classification loop for a normal `build_pass`
invocation (single non-startup start op): either nothing has been
packed yet (empty flags, empty packed list, a nonempty queue of
non-startup ops), or the accumulated flags satisfy the normal-mode
invariant. -/
def NInvN (g : PGraph) (st : BPState) : Prop :=
  (st.currFlags = PassFlags.empty ∧ st.revOps = [] ∧ st.queue ≠ [] ∧
    ∀ q ∈ st.queue, startup_init_ops.contains (g.opType q.1) = false) ∨
  nokFlags st.currFlags = true

/-- Invariant of the classification loop for the startup `build_pass`
invocation: flags are empty (before anything is packed, with a nonempty
queue) or exactly StartupInit plus Main, and every queued op is a
startup-init op without inputs. -/
def SInvS (g : PGraph) (st : BPState) : Prop :=
  ((st.currFlags = PassFlags.empty ∧ st.revOps = [] ∧ st.queue ≠ []) ∨
    st.currFlags = startupFlags) ∧
  ∀ q ∈ st.queue, startup_init_ops.contains (g.opType q.1) = true ∧
    g.opInputs q.1 = []

/-- Invariant of the classification loop tying the primary op to the
packed list: a recorded primary op is packed and carries a non-default
npu_block_type, and while no primary op is recorded every packed op has
the default block type. -/
def PInvP (g : PGraph) (st : BPState) : Prop :=
  (∀ p, st.primaryOp = some p → p ∈ st.revOps ∧ g.opBlock p ≠ NpuBlockType.Default) ∧
  (st.primaryOp = none → ∀ o ∈ st.revOps, g.opBlock o = NpuBlockType.Default)

/-- A qualifying op for C3: one carrying a non-default npu_block_type
attribute, or one whose kind is a pre/post/fuse-limited op (the ops
that force primary-op synthesis). -/
def QualOp (G : PGraph) (ops : List Nat) : Prop :=
  ∃ o ∈ ops, G.opBlock o ≠ NpuBlockType.Default ∨
    (npu_pre_ops ++ npu_post_ops ++ npu_post_fuse_limited_ops).contains
      (G.opType o) = true

/-- The C3 conclusion for a pass with op list `ops` and primary op
`pr` over graph `G`: the primary op is non-null, packed, and is either
an op with a non-default npu_block_type or the synthesized AvgPool
spliced in first. -/
def PrimaryGood (G : PGraph) (ops : List Nat) (pr : Option Nat) : Prop :=
  pr ≠ none ∧ ∀ p, pr = some p → p ∈ ops ∧
    (G.opBlock p ≠ NpuBlockType.Default ∨
      (ops.head? = some p ∧ G.opType p = "AvgPool"))

/-- A placeholder pass used as the fallback of concrete-run extractors. -/
def dummyPass : PPass :=
  ⟨PassPlacement.Unknown, false, NpuBlockType.Default, [], none, [], [], [], none,
    none, none⟩

/-- The core result of packing the Relu op of `reluExGraph` (op 1,
OFM tensor 1). -/
def c3wCore : BPCore :=
  match buildPassCore reluExGraph (fun _ => 0) 12 [1] (some 1) with
  | Except.ok c => c
  | Except.error _ => ⟨reluExGraph, fun _ => 0, dummyPass, []⟩

/-- The graph extension, avgpool id and ops list synthesized by
`create_primary_op` for the singleton ops list containing the Relu of
`reluExGraph`. -/
def c4wTriple : PGraph × Nat × List Nat :=
  match create_primary_op reluExGraph [1] with
  | Except.ok (some t) => t
  | _ => (reluExGraph, 0, [])

end Pack

/-! ## Theorems -/

/-- C10: `npu_get_API_version` returns `(major << 16) | (minor & 0xFFFF)`,
it fits in 32 bits, and shifting right by 16 recovers the major version
while masking with 0xFFFF recovers the minor version. -/
theorem npu_get_API_version_round_trip :
    npu_get_API_version =
        (API_version_major <<< 16) ||| (API_version_minor &&& 0xFFFF) ∧
      npu_get_API_version < 2 ^ 32 ∧
      npu_get_API_version >>> 16 = API_version_major ∧
      npu_get_API_version &&& 0xFFFF = API_version_minor := by
  decide

/-- `overlaps` is symmetric in its two intervals. -/
theorem overlaps_comm (s1 e1 s2 e2 : Nat) :
    overlaps s1 e1 s2 e2 = overlaps s2 e2 s1 e1 := by
  simp [overlaps, Bool.and_comm]

/-- C5: in every LUT state reachable from the empty state through the
operations the command-stream rewrite performs (resets and `put`s), no
two resident LUTs with distinct equivalence ids have overlapping
half-open address intervals. -/
theorem reachable_lut_no_overlap (s : LUTState) (hs : ReachableLutState s)
    (t1 : LutRec) (h1 : t1 ∈ s) (t2 : LutRec) (h2 : t2 ∈ s)
    (hne : t1.eqId ≠ t2.eqId) :
    overlaps t1.address (t1.address + t1.size) t2.address (t2.address + t2.size)
      = false := by
  induction hs generalizing t1 t2 with
  | empty => simp [LUTState.empty] at h1
  | reset s _ _ => simp [LUTState.empty] at h1
  | put s t _ ih =>
    rcases List.mem_cons.mp h1 with rfl | h1'
    · rcases List.mem_cons.mp h2 with rfl | h2'
      · exact absurd rfl hne
      · have := (List.mem_filter.mp h2').2
        simpa using this
    · rcases List.mem_cons.mp h2 with rfl | h2'
      · have := (List.mem_filter.mp h1').2
        rw [overlaps_comm]
        simpa using this
      · exact ih t1 (List.mem_filter.mp h1').1 t2 (List.mem_filter.mp h2').1 hne

/-- Witness for C5: the concrete reachable state with a 256-byte LUT at
address 0 and another at address 256 has non-overlapping residents. -/
theorem reachable_lut_no_overlap_witness :
    overlaps 256 (256 + 256) 0 (0 + 256) = false :=
  reachable_lut_no_overlap ((LUTState.empty.put ⟨1, 0, 256⟩).put ⟨2, 256, 256⟩)
    (ReachableLutState.put _ _ (ReachableLutState.put _ _ ReachableLutState.empty))
    ⟨2, 256, 256⟩ (by decide) ⟨1, 0, 256⟩ (by decide) (by decide)

/-! ### C6: `find_best_address` -/

/-- A counting fold is bounded by the initial value plus the list
length. -/
theorem foldl_count_le {α : Type} (p : α → Bool) :
    ∀ (l : List α) (n : Nat),
      l.foldl (fun n t => if p t then n + 1 else n) n ≤ n + l.length := by
  intro l
  induction l with
  | nil => intro n; simp
  | cons a t ih =>
    intro n
    simp only [List.foldl_cons, List.length_cons]
    by_cases h : p a
    · rw [if_pos h]; exact le_trans (ih (n + 1)) (by omega)
    · rw [if_neg h]; exact le_trans (ih n) (by omega)

/-- The overlap count never exceeds the number of resident LUTs. -/
theorem nrOverlaps_le_length (st : LUTState) (addr step : Nat) :
    st.nrOverlaps addr step ≤ st.length := by
  simpa using
    foldl_count_le
      (fun tens => overlaps addr (addr + step) tens.address (tens.address + tens.size))
      st 0

/-- Membership in `range(start, stop, step)` for a positive step:
exactly the addresses of `[start, stop)` at a multiple-of-`step` offset
from `start`. -/
theorem mem_rangeAddrs {start stop step b : Nat} (hstep : 0 < step) :
    b ∈ rangeAddrs start stop step ↔
      start ≤ b ∧ b < stop ∧ (b - start) % step = 0 := by
  unfold rangeAddrs
  rw [List.mem_range']
  constructor
  · rintro ⟨i, hi, rfl⟩
    refine ⟨Nat.le_add_right _ _, ?_, by simp [Nat.add_sub_cancel_left, Nat.mul_mod_right]⟩
    have h1 : (i + 1) * step ≤ stop - start + step - 1 :=
      (Nat.le_div_iff_mul_le hstep).mp hi
    have h2 : step * i + step ≤ stop - start + step - 1 := by
      calc step * i + step = (i + 1) * step := by ring
        _ ≤ _ := h1
    omega
  · rintro ⟨hsb, hbs, hmod⟩
    obtain ⟨c, hc⟩ := Nat.dvd_of_mod_eq_zero hmod
    refine ⟨c, ?_, by omega⟩
    have h1 : step * c < stop - start := by omega
    have h2 : (c + 1) * step ≤ stop - start + step - 1 := by
      have : step * c + step ≤ stop - start + step - 1 := by omega
      calc (c + 1) * step = step * c + step := by ring
        _ ≤ _ := this
    exact (Nat.le_div_iff_mul_le hstep).mpr h2

/-- For a non-empty range, the candidate list starts with `start`. -/
theorem rangeAddrs_cons {start stop step : Nat} (hss : start < stop) (hstep : 0 < step) :
    rangeAddrs start stop step =
      start :: List.range' (start + step) ((stop - start + step - 1) / step - 1) step := by
  have hn : 1 ≤ (stop - start + step - 1) / step :=
    (Nat.le_div_iff_mul_le hstep).mpr (by omega)
  unfold rangeAddrs
  obtain ⟨m, hm⟩ : ∃ m, (stop - start + step - 1) / step = m + 1 :=
    ⟨(stop - start + step - 1) / step - 1, by omega⟩
  rw [hm, List.range'_succ]
  simp

/-- The running-minimum fold: starting from a state `b` that records a
true count (`b.2 = f b.1`) and precedes every candidate, it returns the
leftmost candidate (or `b`) achieving the minimum count. -/
theorem runBest_spec (f : Nat → Nat) (l : List Nat) :
    ∀ b : Nat × Nat, b.2 = f b.1 → (∀ x ∈ l, b.1 < x) → l.Pairwise (· < ·) →
      (runBest f l b).2 = f (runBest f l b).1 ∧
        ((runBest f l b).1 = b.1 ∨ (runBest f l b).1 ∈ l) ∧
        (runBest f l b).2 ≤ b.2 ∧
        (∀ x ∈ l, (runBest f l b).2 ≤ f x) ∧
        ((runBest f l b).2 = b.2 → (runBest f l b).1 = b.1) ∧
        (∀ x ∈ l, f x = (runBest f l b).2 → (runBest f l b).1 ≤ x) := by
  induction l with
  | nil =>
    intro b hb _ _
    refine ⟨hb, Or.inl rfl, le_refl _, ?_, fun _ => rfl, ?_⟩ <;> simp [runBest]
  | cons a t ih =>
    intro b hb hlt hpw
    have hpw' := List.pairwise_cons.mp hpw
    by_cases h : f a < b.2
    · have step : runBest f (a :: t) b = runBest f t (a, f a) := by
        simp [runBest, h]
      obtain ⟨c1, c2, c3, c4, c5, c6⟩ := ih (a, f a) rfl hpw'.1 hpw'.2
      rw [step]
      refine ⟨c1, ?_, ?_, ?_, ?_, ?_⟩
      · rcases c2 with h1 | h1
        · exact Or.inr (h1 ▸ List.mem_cons_self a t)
        · exact Or.inr (List.mem_cons_of_mem _ h1)
      · exact le_trans c3 (le_of_lt h)
      · intro x hx
        rcases List.mem_cons.mp hx with rfl | hx'
        · exact c3
        · exact c4 x hx'
      · intro he
        have : (runBest f t (a, f a)).2 ≤ f a := c3
        omega
      · intro x hx hfx
        rcases List.mem_cons.mp hx with rfl | hx'
        · have h5 := c5 (le_antisymm c3 (hfx ▸ le_refl _))
          omega
        · exact c6 x hx' hfx
    · have step : runBest f (a :: t) b = runBest f t b := by
        simp [runBest, h]
      obtain ⟨c1, c2, c3, c4, c5, c6⟩ :=
        ih b hb (fun x hx => hlt x (List.mem_cons_of_mem _ hx)) hpw'.2
      rw [step]
      refine ⟨c1, ?_, c3, ?_, c5, ?_⟩
      · rcases c2 with h1 | h1
        · exact Or.inl h1
        · exact Or.inr (List.mem_cons_of_mem _ h1)
      · intro x hx
        rcases List.mem_cons.mp hx with rfl | hx'
        · omega
        · exact c4 x hx'
      · intro x hx hfx
        rcases List.mem_cons.mp hx with rfl | hx'
        · have hr2 : (runBest f t b).2 = b.2 := by omega
          have := c5 hr2
          have hba : b.1 < x := hlt x (List.mem_cons_self x t)
          omega
        · exact c6 x hx' hfx

/-- C6 (amended): provided the number of resident LUTs is smaller than
`stop`, `find_best_address start stop step` with `start < stop` and
`step > 0` returns an address of the range `[start, stop)` at a
multiple-of-`step` offset from `start` whose interval overlaps the
fewest currently resident LUTs, and among the addresses achieving that
minimum it returns the lowest. -/
theorem find_best_address_spec (st : LUTState) (start stop step : Nat)
    (hss : start < stop) (hstep : 0 < step) (hlen : st.length < stop) :
    start ≤ st.find_best_address start stop step ∧
      st.find_best_address start stop step < stop ∧
      (st.find_best_address start stop step - start) % step = 0 ∧
      (∀ b, start ≤ b → b < stop → (b - start) % step = 0 →
        st.nrOverlaps (st.find_best_address start stop step) step ≤ st.nrOverlaps b step) ∧
      (∀ b, start ≤ b → b < stop → (b - start) % step = 0 →
        st.nrOverlaps b step = st.nrOverlaps (st.find_best_address start stop step) step →
        st.find_best_address start stop step ≤ b) := by
  have hbridge :
      st.find_best_address start stop step =
        (runBest (fun a => st.nrOverlaps a step) (rangeAddrs start stop step)
          (start, stop)).1 := rfl
  set f : Nat → Nat := fun a => st.nrOverlaps a step with hf
  set rest : List Nat :=
    List.range' (start + step) ((stop - start + step - 1) / step - 1) step with hrest
  have hcons : rangeAddrs start stop step = start :: rest := rangeAddrs_cons hss hstep
  have hfs : f start < stop := lt_of_le_of_lt (nrOverlaps_le_length st start step) hlen
  have hstep1 : runBest f (start :: rest) (start, stop) = runBest f rest (start, f start) := by
    simp [runBest, hfs]
  have hltrest : ∀ x ∈ rest, start < x := by
    intro x hx
    rw [hrest, List.mem_range'] at hx
    obtain ⟨i, _, rfl⟩ := hx
    omega
  have hpw : rest.Pairwise (· < ·) := by
    rw [hrest]; exact List.pairwise_lt_range' _ _ _ hstep
  obtain ⟨c1, c2, c3, c4, c5, c6⟩ := runBest_spec f rest (start, f start) rfl hltrest hpw
  set r := runBest f rest (start, f start) with hr
  have hres : st.find_best_address start stop step = r.1 := by
    rw [hbridge, hcons, hstep1]
  have hmem : r.1 ∈ rangeAddrs start stop step := by
    rw [hcons]
    rcases c2 with h1 | h1
    · exact h1 ▸ List.mem_cons_self _ _
    · exact List.mem_cons_of_mem _ h1
  have hchar := (mem_rangeAddrs hstep).mp hmem
  have hminall : ∀ b, start ≤ b → b < stop → (b - start) % step = 0 → f r.1 ≤ f b := by
    intro b h1 h2 h3
    have hb : b ∈ rangeAddrs start stop step := (mem_rangeAddrs hstep).mpr ⟨h1, h2, h3⟩
    rw [hcons] at hb
    rcases List.mem_cons.mp hb with rfl | hb'
    · calc f r.1 = r.2 := c1.symm
        _ ≤ f b := c3
    · calc f r.1 = r.2 := c1.symm
        _ ≤ f b := c4 b hb'
  have htie : ∀ b, start ≤ b → b < stop → (b - start) % step = 0 →
      f b = f r.1 → r.1 ≤ b := by
    intro b h1 h2 h3 h4
    have hb : b ∈ rangeAddrs start stop step := (mem_rangeAddrs hstep).mpr ⟨h1, h2, h3⟩
    rw [hcons] at hb
    rcases List.mem_cons.mp hb with rfl | hb'
    · have : r.2 = f b := by omega
      have := c5 this
      omega
    · exact c6 b hb' (by omega)
  rw [hres]
  exact ⟨hchar.1, hchar.2.1, hchar.2.2, hminall, htie⟩

/-- Witness for C6: a single-LUT state with range `[0, 2048)` and step
256; the returned address is in range, step-aligned and achieves a
lower overlap count at 256 than the occupied address 0 would allow. -/
theorem find_best_address_spec_witness :
    0 ≤ LUTState.find_best_address [⟨1, 0, 256⟩] 0 2048 256 ∧
      LUTState.find_best_address [⟨1, 0, 256⟩] 0 2048 256 < 2048 ∧
      (LUTState.find_best_address [⟨1, 0, 256⟩] 0 2048 256 - 0) % 256 = 0 ∧
      LUTState.nrOverlaps [⟨1, 0, 256⟩]
          (LUTState.find_best_address [⟨1, 0, 256⟩] 0 2048 256) 256 ≤
        LUTState.nrOverlaps [⟨1, 0, 256⟩] 256 256 := by
  obtain ⟨h1, h2, h3, h4, _⟩ :=
    find_best_address_spec [⟨1, 0, 256⟩] 0 2048 256 (by decide) (by decide) (by decide)
  exact ⟨h1, h2, h3, h4 256 (by decide) (by decide) (by decide)⟩

/-- Counterexample for C6 as stated: in `fbaExState` with
`start = 0, stop = 2, step = 1`, the function returns address 0, whose
interval overlaps three residents, although the in-range address 1
overlaps only two: with fewer than `stop` residents required by nothing
in the claim, the sentinel initialisation `best_nr_overlaps = stop`
prevents any update. -/
theorem find_best_address_counterexample :
    LUTState.find_best_address fbaExState 0 2 1 = 0 ∧
      (0:Nat) ≤ 1 ∧ (1:Nat) < 2 ∧ ((1:Nat) - 0) % 1 = 0 ∧
      LUTState.nrOverlaps fbaExState 1 1 < LUTState.nrOverlaps fbaExState 0 1 := by
  decide

/-! ### C2 and C9: the command-stream rewrite -/

/-- The bank-clobbering reset changes only the `lutState` field. -/
theorem resetState_stream (c : Prop) [Decidable c] (s : RewriteState) :
    ((if c then { s with lutState := LUTState.empty } else s) : RewriteState).stream
      = s.stream := by
  split <;> rfl

/-- The bank-clobbering reset does not fire on DMA commands. -/
theorem resetState_of_dma (arch : ArchLut) (s : RewriteState)
    (cmd : HLCmd) (hdma : cmd.cmdtype = CommandType.DMA) :
    ((if cmd.cmdtype = CommandType.NpuStripe ∧ cmd.psLutTensor = none ∧
          arch.shram_reserved_unused_banks = 0 then
        { s with lutState := LUTState.empty }
      else s) : RewriteState) = s := by
  rw [if_neg]
  rw [hdma]
  simp

/-- C2 (amended): when a DMA command whose output tensor has purpose LUT
finds an equivalent LUT already resident, the step keeps the command
stream and the LUT state unchanged (the DMA is dropped), sets the
incoming tensor's address to the resident LUT's address, and sets the
primary op's `lut_index` attribute to
`(resident address - shram_lut_address) / (resident storage size)`. -/
theorem optStep_equivalent_lut (env : LutTensEnv) (arch : ArchLut)
    (s : RewriteState) (cmd : HLCmd) (e : LutRec)
    (hdma : cmd.cmdtype = CommandType.DMA)
    (hlut : env.purpose cmd.outTensor = TensorPurpose.LUT)
    (heq : s.lutState.get_equivalent
        ⟨env.eqId cmd.outTensor, s.addr cmd.outTensor, env.size cmd.outTensor⟩ = some e)
    (s2 : RewriteState) (hok : optStep env arch s cmd = .ok s2) :
    s2.stream = s.stream ∧
      s2.lutState = s.lutState ∧
      s2.addr = updMap s.addr cmd.outTensor e.address ∧
      s2.lutIndex = updMap s.lutIndex cmd.psPrimaryOp
        (some ((e.address - arch.shram_lut_address) / e.size)) := by
  unfold optStep at hok
  rw [resetState_of_dma arch s cmd hdma] at hok
  rw [if_neg (by rw [hdma, hlut]; simp)] at hok
  simp only [] at hok
  rw [heq] at hok
  unfold get_lut_index at hok
  simp only [] at hok
  by_cases hslot : (e.address - arch.shram_lut_address) / e.size < 8
  · rw [if_pos hslot] at hok
    have h2 : ({ s with
        addr := updMap s.addr cmd.outTensor e.address,
        lutIndex := updMap s.lutIndex cmd.psPrimaryOp
          (some ((e.address - arch.shram_lut_address) / e.size)) } : RewriteState) = s2 := by
      exact Except.ok.inj hok
    rw [← h2]
    exact ⟨rfl, rfl, rfl, rfl⟩
  · rw [if_neg hslot] at hok
    have hcontra : (Except.error LutErr.slotAssert : Except LutErr RewriteState)
        = .ok s2 := hok
    cases hcontra

/-- Witness for C2: the third command of the example run applies the
theorem at a concrete state. -/
theorem optStep_equivalent_lut_witness :
    lutExStep3.stream = lutExMidState.stream ∧
      lutExStep3.lutState = lutExMidState.lutState ∧
      lutExStep3.addr = updMap lutExMidState.addr 3 512 ∧
      lutExStep3.lutIndex = updMap lutExMidState.lutIndex 13 (some ((512 - 0) / 512)) :=
  optStep_equivalent_lut lutExEnv lutExArch lutExMidState
    ⟨CommandType.DMA, none, 13, 3⟩ ⟨2, 512, 512⟩ rfl rfl rfl lutExStep3 rfl

/-- Counterexample for C2 as stated: in the example run the third
command's DMA finds the equivalent 512-byte LUT resident at address 512
and is dropped (only two commands remain) with the incoming tensor
readdressed to 512, but the primary op's `lut_index` becomes
`512 / 512 = 1` (division by the resident LUT's storage size), not
`(512 - shram_lut_address) / 256 = 2` as the claim states. -/
theorem optStep_lut_index_counterexample :
    (optimize_high_level_cmd_stream lutExEnv lutExArch (fun _ => 0) (fun _ => none)
        lutExCmds).map (fun s => (s.addr 3, s.lutIndex 13, s.stream.length)) =
      .ok (512, some 1, 2) ∧
      (some ((512 - lutExArch.shram_lut_address) / 256) : Option Nat) = some 2 ∧
      (some 1 : Option Nat) ≠ some 2 := by
  exact ⟨rfl, rfl, by decide⟩

/-- One rewrite step either emits the command unchanged at the end of
the stream, or keeps the stream and the command is a LUT DMA. -/
theorem optStep_stream_cases (env : LutTensEnv) (arch : ArchLut)
    (s : RewriteState) (cmd : HLCmd) (s2 : RewriteState)
    (hok : optStep env arch s cmd = .ok s2) :
    s2.stream = s.stream ++ [cmd] ∨
      (s2.stream = s.stream ∧ cmd.cmdtype = CommandType.DMA ∧
        env.purpose cmd.outTensor = TensorPurpose.LUT) := by
  unfold optStep at hok
  set s' := (if cmd.cmdtype = CommandType.NpuStripe ∧ cmd.psLutTensor = none ∧
        arch.shram_reserved_unused_banks = 0 then
      { s with lutState := LUTState.empty } else s) with hs'
  have hstr : s'.stream = s.stream := by rw [hs']; exact resetState_stream _ s
  by_cases hguard : cmd.cmdtype ≠ CommandType.DMA ∨
      env.purpose cmd.outTensor ≠ TensorPurpose.LUT
  · rw [if_pos hguard] at hok
    have := Except.ok.inj hok
    left
    rw [← this, ← hstr]
  · rw [if_neg hguard] at hok
    push_neg at hguard
    simp only [] at hok
    cases hfind : s'.lutState.get_equivalent
        ⟨env.eqId cmd.outTensor, s'.addr cmd.outTensor, env.size cmd.outTensor⟩ with
    | none =>
      rw [hfind] at hok
      have := Except.ok.inj hok
      left
      rw [← this, ← hstr]
    | some e =>
      rw [hfind] at hok
      unfold get_lut_index at hok
      simp only [] at hok
      by_cases hslot : (e.address - arch.shram_lut_address) / e.size < 8
      · rw [if_pos hslot] at hok
        have := Except.ok.inj hok
        right
        exact ⟨by rw [← this, ← hstr], hguard.1, hguard.2⟩
      · rw [if_neg hslot] at hok
        have hcontra : (Except.error LutErr.slotAssert : Except LutErr RewriteState)
            = .ok s2 := hok
        cases hcontra

/-- The rewrite loop over any command suffix: the stream grows by a
sublist of the processed commands, and every command not emitted is a
LUT DMA. -/
theorem optimize_stream_aux (env : LutTensEnv) (arch : ArchLut) :
    ∀ (cmds : List HLCmd) (s out : RewriteState),
      cmds.foldlM (optStep env arch) s = .ok out →
      ∃ t, out.stream = s.stream ++ t ∧ t.Sublist cmds ∧
        ∀ c ∈ cmds, c ∉ t →
          c.cmdtype = CommandType.DMA ∧ env.purpose c.outTensor = TensorPurpose.LUT := by
  intro cmds
  induction cmds with
  | nil =>
    intro s out hok
    simp only [List.foldlM_nil] at hok
    have : s = out := Except.ok.inj hok
    exact ⟨[], by simp [← this], List.Sublist.refl _, by simp⟩
  | cons c cs ih =>
    intro s out hok
    rw [List.foldlM_cons] at hok
    cases hstep : optStep env arch s c with
    | error e =>
      rw [hstep] at hok
      have hcontra : (Except.error e : Except LutErr RewriteState) = .ok out := hok
      cases hcontra
    | ok s1 =>
      rw [hstep] at hok
      obtain ⟨t, ht, hsub, hdrop⟩ := ih s1 out hok
      rcases optStep_stream_cases env arch s c s1 hstep with hap | ⟨hsk, hdma, hlut⟩
      · refine ⟨c :: t, ?_, hsub.cons₂ c, ?_⟩
        · rw [ht, hap]; simp
        · intro c' hc' hnotin
          rcases List.mem_cons.mp hc' with rfl | hc''
          · exact absurd (List.mem_cons_self _ _) hnotin
          · exact hdrop c' hc'' (fun hmem => hnotin (List.mem_cons_of_mem _ hmem))
      · refine ⟨t, by rw [ht, hsk], hsub.cons c, ?_⟩
        intro c' hc' hnotin
        rcases List.mem_cons.mp hc' with rfl | hc''
        · exact ⟨hdma, hlut⟩
        · exact hdrop c' hc'' hnotin

/-- C9: a successfully rewritten command stream is a sublist of the
original one (all kept commands unchanged and in their original relative
order), and every removed command is a DMA command whose output tensor
has purpose LUT. -/
theorem optimize_stream_sublist (env : LutTensEnv) (arch : ArchLut)
    (addr0 : Nat → Nat) (lutIndex0 : Nat → Option Nat) (cmds : List HLCmd)
    (out : RewriteState)
    (hok : optimize_high_level_cmd_stream env arch addr0 lutIndex0 cmds = .ok out) :
    out.stream.Sublist cmds ∧
      ∀ c ∈ cmds, c ∉ out.stream →
        c.cmdtype = CommandType.DMA ∧ env.purpose c.outTensor = TensorPurpose.LUT := by
  obtain ⟨t, ht, hsub, hdrop⟩ :=
    optimize_stream_aux env arch cmds ⟨LUTState.empty, addr0, lutIndex0, []⟩ out hok
  have hts : out.stream = t := by simpa using ht
  rw [hts]
  exact ⟨hsub, hdrop⟩

/-- Witness for C9: the example run, whose third command is dropped. -/
theorem optimize_stream_sublist_witness :
    lutExFinal.stream.Sublist lutExCmds :=
  (optimize_stream_sublist lutExEnv lutExArch (fun _ => 0) (fun _ => none) lutExCmds
    lutExFinal rfl).1

/-! ### C1: tensor conditions guaranteed by the checker -/

/-- A tensor of the IFM/IFM2/weights/OFM list is in the list the
dtype/int32/dimension constraints check. -/
theorem mem_ifmTensorsOrInputs (op : SOp) (t : STensor)
    (ht : t ∈ op.ifmWeightsOfm) : t ∈ op.ifmTensorsOrInputs := by
  unfold SOp.ifmTensorsOrInputs
  by_cases he : op.ifmWeightsOfm.isEmpty
  · rw [List.isEmpty_iff] at he
    rw [he] at ht
    cases ht
  · rw [if_neg he]
    exact ht

/-- C1 (amended): every operator the checker accepts has all its
IFM/IFM2/weights/OFM tensors of a supported data type, carrying a
quantization record whose scale (when set) is not infinite, with every
shape dimension defined and in `[1, 65535]`; and every tensor in its
input and output lists has rank at most 4. -/
theorem is_operator_supported_tensor_checks (op : SOp)
    (h : is_operator_supported op = true) :
    (∀ t ∈ op.ifmWeightsOfm,
        t.dtype ∈ supported_op_dtypes ∧
        t.quantization.isSome = true ∧
        (∀ q s, t.quantization = some q → q.scale_f32 = some s → s.anyInf = false) ∧
        (∀ d ∈ t.shape, ∃ v, d = some v ∧ 1 ≤ v ∧ v ≤ 65535)) ∧
    (∀ t ∈ op.inOutTensors, t.shape.length ≤ 4) := by
  unfold is_operator_supported at h
  rw [Bool.and_eq_true] at h
  obtain ⟨-, hall⟩ := h
  rw [List.all_append, Bool.and_eq_true] at hall
  obtain ⟨hgen, -⟩ := hall
  simp only [generic_constraints, List.all_cons, List.all_nil, Bool.and_eq_true,
    and_true] at hgen
  obtain ⟨-, -, -, -, h5, h6, -, h8, h9, h10, -, -⟩ := hgen
  constructor
  · intro t ht
    have ht' := mem_ifmTensorsOrInputs op t ht
    refine ⟨?_, ?_, ?_, ?_⟩
    · unfold constraint_tens_dtype at h6
      have h6t := List.all_eq_true.mp h6 t ht'
      exact List.mem_of_elem_eq_true h6t
    · unfold constraint_tens_quant_none_check at h9
      exact List.all_eq_true.mp h9 t ht
    · intro q s hq hs
      unfold constraint_tens_quant_scale at h10
      have h10t := List.all_eq_true.mp h10 t ht
      simpa [hq, hs] using h10t
    · intro d hd
      unfold constraint_tens_dimension at h8
      have h8t := List.all_eq_true.mp h8 t ht'
      have hdim := List.all_eq_true.mp h8t d hd
      cases d with
      | none => simp at hdim
      | some v =>
          have hvb : 1 ≤ v ∧ v ≤ 65535 := by
            simpa [tens_dim_min, tens_dim_max, Bool.and_eq_true] using hdim
          exact ⟨v, rfl, hvb.1, hvb.2⟩
  · intro t ht
    unfold constraint_tens_shape_size at h5
    have h5t := List.all_eq_true.mp h5 t ht
    simpa using h5t

/-- Witness for C1: the theorem applied to the accepted example
operator yields the supported data type of its weight tensor. -/
theorem is_operator_supported_tensor_checks_witness :
    exWeights.dtype ∈ supported_op_dtypes :=
  ((is_operator_supported_tensor_checks exC1Op (by decide)).1 exWeights (by decide)).1

/-- Counterexample for C1 as stated: the checker accepts `exC1Op`, yet
its bias tensor — an element of the operator input list — has data type
int64 (not among the supported tensor types) and no quantization
record, because the dtype/quantization constraints only inspect the
IFM/IFM2/weights/OFM tensors. -/
theorem is_operator_supported_dtype_counterexample :
    is_operator_supported exC1Op = true ∧
      exBias ∈ exC1Op.inOutTensors ∧
      ¬ exBias.dtype ∈ supported_op_dtypes ∧
      exBias.quantization.isSome = false := by
  refine ⟨by decide, by decide, by decide, by decide⟩

/-! ### C7: elementwise shape constraints -/

/-- Dropping the wrapping of a `some`-mapped list commutes with
`sliceLast`. -/
theorem sliceLast_map {α β : Type} (f : α → β) (l : List α) (n : Nat) :
    sliceLast (l.map f) n = (sliceLast l n).map f := by
  unfold sliceLast
  rw [List.length_map, List.map_drop]

/-- `all` over a mapped list (for a type-changing map). -/
theorem allOfMap {α β : Type} (f : α → β) (p : β → Bool) :
    ∀ l : List α, (l.map f).all p = l.all (fun a => p (f a)) := by
  intro l
  induction l with
  | nil => rfl
  | cons a t ih => simp [List.all_cons, ih]

/-- C7: for a binary Add/Mul/Sub operator with both input shapes
present (fully defined integer shapes), the elementwise shape
constraints (`constraint_matching_either_shapes` and
`constraint_broadcast_shapes`) pass iff at least one input shape equals
the OFM shape and along every aligned trailing dimension the two input
dimensions agree or one of them is 1 while the OFM dimension equals
their maximum; in particular Add `[1,4] + [4,4] -> [4,4]` passes and
Add `[1,1,4,1] + [1,4,1,16] -> [1,4,4,16]` fails. -/
theorem elemwise_shape_constraints_iff :
    (∀ (op : SOp) (t1 t2 t3 : STensor) (s1 s2 s3 : List Int),
      op.type ∈ binary_elem_wise_add_mul_sub →
      op.ifm = some t1 → op.ifm2 = some t2 → op.ofm = some t3 →
      t1.shape = s1.map some → t2.shape = s2.map some → t3.shape = s3.map some →
      ((constraint_matching_either_shapes op && constraint_broadcast_shapes op) = true ↔
        ((s1 = s3 ∨ s2 = s3) ∧
          ∀ x ∈ (sliceLast s1 (min s1.length s2.length)).zip
              ((sliceLast s2 (min s1.length s2.length)).zip
                (sliceLast s3 (min s1.length s2.length))),
            (x.1 = x.2.1 ∨ x.1 = 1 ∨ x.2.1 = 1) ∧ x.2.2 = max x.1 x.2.1))) ∧
    (constraint_matching_either_shapes exAddOk && constraint_broadcast_shapes exAddOk)
      = true ∧
    (constraint_matching_either_shapes exAddBad && constraint_broadcast_shapes exAddBad)
      = false := by
  refine ⟨?_, by decide, by decide⟩
  intro op t1 t2 t3 s1 s2 s3 _ hifm hifm2 hofm e1 e2 e3
  unfold constraint_matching_either_shapes constraint_broadcast_shapes
  rw [hifm, hifm2, hofm]
  simp only []
  rw [e1, e2, e3]
  have hinj : Function.Injective (List.map (@some Int)) :=
    List.map_injective_iff.mpr (Option.some_injective Int)
  have hlen : min (s1.map some).length (s2.map some).length = min s1.length s2.length := by
    simp
  rw [Bool.and_eq_true, Bool.or_eq_true]
  constructor
  · rintro ⟨hm, hb⟩
    constructor
    · rcases hm with hm | hm
      · exact Or.inl (hinj (by simpa using hm))
      · exact Or.inr (hinj (by simpa using hm))
    · intro x hx
      rw [hlen, sliceLast_map, sliceLast_map, sliceLast_map, List.zip_map,
        List.zip_map, allOfMap] at hb
      have hxall := List.all_eq_true.mp hb x hx
      simpa [Prod.map, or_assoc] using hxall
  · rintro ⟨hm, hb⟩
    constructor
    · rcases hm with hm | hm
      · exact Or.inl (by simp [hm])
      · exact Or.inr (by simp [hm])
    · rw [hlen, sliceLast_map, sliceLast_map, sliceLast_map, List.zip_map,
        List.zip_map, allOfMap]
      rw [List.all_eq_true]
      intro x hx
      have hxp := hb x hx
      simpa [Prod.map, or_assoc] using hxp

/-- Witness for C7: the iff applied to the accepted example, with its
right-hand side discharged concretely. -/
theorem elemwise_shape_constraints_iff_witness :
    (constraint_matching_either_shapes exAddOk && constraint_broadcast_shapes exAddOk)
      = true :=
  (elemwise_shape_constraints_iff.1 exAddOk (shapeTensor [1, 4]) (shapeTensor [4, 4])
    (shapeTensor [4, 4]) [1, 4] [4, 4] [4, 4] (by decide) rfl rfl rfl rfl rfl rfl).mpr
    (by decide)

namespace Pack

/-- The input scan only changes the queue and the input set. -/
lemma processInputs_fields (g : PGraph) (c : Nat) (st : BPState) :
    (processInputs g c st).revOps = st.revOps ∧
    (processInputs g c st).currFlags = st.currFlags ∧
    (processInputs g c st).npuBlockType = st.npuBlockType ∧
    (processInputs g c st).primaryOp = st.primaryOp := by
  unfold processInputs
  generalize (g.opInputs c) = l
  induction l generalizing st with
  | nil => exact ⟨rfl, rfl, rfl, rfl⟩
  | cons a t ih =>
      simp only [List.foldl_cons]
      cases h : canPackInput g c a <;> simp only [h] <;> exact ih _

@[simp] lemma processInputs_revOps (g : PGraph) (c : Nat) (st : BPState) :
    (processInputs g c st).revOps = st.revOps := (processInputs_fields g c st).1

@[simp] lemma processInputs_currFlags (g : PGraph) (c : Nat) (st : BPState) :
    (processInputs g c st).currFlags = st.currFlags :=
  (processInputs_fields g c st).2.1

@[simp] lemma processInputs_npuBlockType (g : PGraph) (c : Nat) (st : BPState) :
    (processInputs g c st).npuBlockType = st.npuBlockType :=
  (processInputs_fields g c st).2.2.1

@[simp] lemma processInputs_primaryOp (g : PGraph) (c : Nat) (st : BPState) :
    (processInputs g c st).primaryOp = st.primaryOp :=
  (processInputs_fields g c st).2.2.2

/-- With no inputs to scan, the queue is unchanged as well. -/
lemma processInputs_queue_nil (g : PGraph) (c : Nat) (st : BPState)
    (h : g.opInputs c = []) : (processInputs g c st).queue = st.queue := by
  unfold processInputs
  rw [h]
  rfl

/-- Success shape of the accepted-row body: the op is prepended to the
packed list, the flags are updated by the row masks, the primary op and
block type are absorbed exactly when the op carries a non-default block
type, and an op without inputs leaves the queue unchanged. -/
lemma applyRow_ok (g : PGraph) (c : Nat) (tens : Option Nat) (row : PackRow)
    (st st2 : BPState) (h : applyRow g c tens row st = Except.ok st2) :
    st2.revOps = c :: st.revOps ∧
    st2.currFlags = (st.currFlags.diff row.flagsToClear).union row.flagsToSet ∧
    st2.primaryOp =
      (if g.opBlock c = NpuBlockType.Default then st.primaryOp else some c) ∧
    st2.npuBlockType =
      (if g.opBlock c = NpuBlockType.Default then st.npuBlockType else g.opBlock c) ∧
    (g.opInputs c = [] → st2.queue = st.queue) := by
  unfold applyRow at h
  by_cases hb : g.opBlock c = NpuBlockType.Default
  case pos =>
    rw [if_neg (not_not_intro hb)] at h
    simp only [bind, Except.bind, pure, Except.pure] at h
    repeat' split at h
    all_goals cases h
    all_goals refine ⟨by simp, by simp, ?_, ?_,
      fun hi => by simp [processInputs_queue_nil _ _ _ hi]⟩ <;> simp [hb]
  case neg =>
    rw [if_pos hb] at h
    simp only [bind, Except.bind, pure, Except.pure] at h
    repeat' split at h
    all_goals cases h
    all_goals refine ⟨by simp, by simp, ?_, ?_,
      fun hi => by simp [processInputs_queue_nil _ _ _ hi]⟩ <;> simp [hb]

/-- The accepted-row body never reports the placement assertions. -/
lemma applyRow_no_placement_err (g : PGraph) (c : Nat) (tens : Option Nat)
    (row : PackRow) (st : BPState) (e : PackErr)
    (h : applyRow g c tens row st = Except.error e) :
    e ≠ PackErr.placementConflict ∧ e ≠ PackErr.placementUnknown := by
  unfold applyRow at h
  by_cases hb : g.opBlock c = NpuBlockType.Default
  case pos =>
    rw [if_neg (not_not_intro hb)] at h
    simp only [bind, Except.bind, pure, Except.pure] at h
    repeat' split at h
    all_goals cases h
    all_goals exact ⟨by decide, by decide⟩
  case neg =>
    rw [if_pos hb] at h
    simp only [bind, Except.bind, pure, Except.pure] at h
    repeat' split at h
    all_goals cases h
    all_goals exact ⟨by decide, by decide⟩

/-- The classification loop never reports the placement assertions. -/
lemma buildPassLoop_no_placement_err (g : PGraph) :
    ∀ (fuel : Nat) (st : BPState) (e : PackErr),
      buildPassLoop g fuel st = Except.error e →
      e ≠ PackErr.placementConflict ∧ e ≠ PackErr.placementUnknown := by
  intro fuel
  induction fuel with
  | zero =>
      intro st e h
      cases h
      exact ⟨by decide, by decide⟩
  | succ n ih =>
      intro st e h
      unfold buildPassLoop at h
      rcases hq : st.queue with _ | ⟨⟨o, t⟩, rest⟩
      · rw [hq] at h
        cases h
      · rw [hq] at h
        simp only [] at h
        split at h
        · exact ih _ _ h
        · split at h
          · simp only [bind, Except.bind] at h
            split at h
            · next heq =>
                cases h
                exact applyRow_no_placement_err _ _ _ _ _ _ heq
            · exact ih _ _ h
          · split at h
            · cases h
              exact ⟨by decide, by decide⟩
            · exact ih _ _ h

/-- Stepping any row of the table from flags satisfying the
normal-mode invariant, with the row's incompatible flags absent,
preserves the invariant (stated over the flag bits so that it is
decidable by enumeration). -/
lemma rowStep_nok_all : ∀ row ∈ test_sequence,
    ∀ (b1 b2 b3 b4 b5 b6 b7 b8 b9 b10 b11 : Bool),
    nokFlags ⟨b1, b2, b3, b4, b5, b6, b7, b8, b9, b10, b11⟩ = true →
    (PassFlags.inter ⟨b1, b2, b3, b4, b5, b6, b7, b8, b9, b10, b11⟩
      row.incompatiblePackFlags).isEmpty = true →
    nokFlags ((PassFlags.diff ⟨b1, b2, b3, b4, b5, b6, b7, b8, b9, b10, b11⟩
      row.flagsToClear).union row.flagsToSet) = true := by
  decide

/-- `rowStep_nok_all` restated over a flag record. -/
lemma rowStep_nok (row : PackRow) (hrow : row ∈ test_sequence) (f : PassFlags)
    (hnok : nokFlags f = true)
    (hmask : (f.inter row.incompatiblePackFlags).isEmpty = true) :
    nokFlags ((f.diff row.flagsToClear).union row.flagsToSet) = true := by
  obtain ⟨b1, b2, b3, b4, b5, b6, b7, b8, b9, b10, b11⟩ := f
  exact rowStep_nok_all row hrow b1 b2 b3 b4 b5 b6 b7 b8 b9 b10 b11 hnok hmask

/-- Only the startup-init row sets the StartupInit flag. -/
lemma startup_row_charac : ∀ row ∈ test_sequence,
    row.flagsToSet.startupInit = true → row.opsSet = some startup_init_ops := by
  decide

/-- Every non-startup row establishes the normal-mode invariant when
stepped from the empty flag state. -/
lemma row_empty_nok : ∀ row ∈ test_sequence,
    row.flagsToSet.startupInit = false →
    nokFlags ((PassFlags.empty.diff row.flagsToClear).union row.flagsToSet) = true := by
  decide

/-- The row found for a non-startup op at empty flags establishes the
normal-mode invariant. -/
lemma findRow_empty_nonstartup (g : PGraph) (o : Nat) (row : PackRow)
    (hns : startup_init_ops.contains (g.opType o) = false)
    (h : findRow g o PassFlags.empty = some row) :
    nokFlags ((PassFlags.empty.diff row.flagsToClear).union row.flagsToSet) = true := by
  have hmem := List.mem_of_find?_eq_some h
  have hpred := List.find?_some h
  apply row_empty_nok row hmem
  cases hx : row.flagsToSet.startupInit
  · rfl
  · exfalso
    have hops := startup_row_charac row hmem hx
    rw [hops] at hpred
    simp only [Bool.and_eq_true] at hpred
    rw [hns] at hpred
    exact Bool.noConfusion hpred.1.1

/-- At empty flags the row scan always finds a row (the wildcard
fallback matches every op). -/
lemma findRow_empty_isSome (g : PGraph) (o : Nat) :
    findRow g o PassFlags.empty ≠ none := by
  unfold findRow
  intro hnone
  rw [List.find?_eq_none] at hnone
  have h10 : (⟨none, { npu := true, memoryOnly := true, main := true },
      { cpu := true, main := true }, PassFlags.empty⟩ : PackRow) ∈ test_sequence := by
    decide
  exact absurd rfl (hnone _ h10)

/-- For a startup-init op at empty or startup flags, the row scan finds
the startup row and steps the flags to exactly StartupInit plus Main. -/
lemma findRow_startup (g : PGraph) (o : Nat) (f : PassFlags)
    (hs : startup_init_ops.contains (g.opType o) = true)
    (hf : f = PassFlags.empty ∨ f = startupFlags) :
    ∃ row, findRow g o f = some row ∧
      (f.diff row.flagsToClear).union row.flagsToSet = startupFlags := by
  have hmem : g.opType o ∈ startup_init_ops := List.mem_of_elem_eq_true hs
  have hty : g.opType o = "Const" ∨ g.opType o = "VariableV2" ∨
      g.opType o = "Placeholder" ∨ g.opType o = "SubgraphInput" := by
    simpa [startup_init_ops] using hmem
  rcases hf with hf | hf <;> subst hf <;>
    rcases hty with hty | hty | hty | hty <;>
    exact ⟨⟨some startup_init_ops, { npu := true, cpu := true, memoryOnly := true },
      { startupInit := true, main := true }, PassFlags.empty⟩,
      by unfold findRow test_sequence; rw [hty]; rfl, by decide⟩

/-- The normal-mode invariant survives the ambidextrous element-wise
adjustment. -/
lemma nok_union_ew (f : PassFlags) (h : nokFlags f = true) :
    nokFlags (f.union { elementWise := true }) = true := by
  obtain ⟨b1, b2, b3, b4, b5, b6, b7, b8, b9, b10, b11⟩ := f
  revert b1 b2 b3 b4 b5 b6 b7 b8 b9 b10 b11
  decide

/-- Under the normal-mode invariant the placement chain succeeds. -/
lemma decidePlacement_nok (f : PassFlags) (h : nokFlags f = true) :
    decidePlacement f = Except.ok (placementOf f) := by
  obtain ⟨b1, b2, b3, b4, b5, b6, b7, b8, b9, b10, b11⟩ := f
  revert b1 b2 b3 b4 b5 b6 b7 b8 b9 b10 b11
  decide

/-- Primary-op synthesis reports at most an index error. -/
lemma create_primary_op_no_placement (g : PGraph) (l : List Nat) (e : PackErr)
    (h : create_primary_op g l = Except.error e) :
    e ≠ PackErr.placementConflict ∧ e ≠ PackErr.placementUnknown := by
  unfold create_primary_op at h
  simp only [bind, Except.bind, pure, Except.pure] at h
  repeat' split at h
  all_goals cases h
  all_goals exact ⟨by decide, by decide⟩

/-- A successful classification loop started under the normal-mode
invariant ends with flags satisfying the normal-mode invariant. -/
lemma buildPassLoop_nok (g : PGraph) : ∀ (fuel : Nat) (st st2 : BPState),
    NInvN g st → buildPassLoop g fuel st = Except.ok st2 →
    nokFlags st2.currFlags = true := by
  intro fuel
  induction fuel with
  | zero =>
      intro st st2 _ h
      cases h
  | succ n ih =>
      intro st st2 hinv h
      unfold buildPassLoop at h
      rcases hq : st.queue with _ | ⟨⟨o, t⟩, rest⟩
      · rw [hq] at h
        cases h
        rcases hinv with ⟨_, _, hne, _⟩ | hnok
        · exact absurd hq hne
        · exact hnok
      · rw [hq] at h
        simp only [] at h
        by_cases hdup : st.revOps.contains o = true
        · rw [if_pos hdup] at h
          rcases hinv with ⟨_, hrev, _, _⟩ | hnok
          · rw [hrev] at hdup
            exact absurd hdup (by simp)
          · refine ih _ _ ?_ h
            exact Or.inr hnok
        · rw [if_neg hdup] at h
          rcases heqRow : findRow g o st.currFlags with _ | row
          · rw [heqRow] at h
            rcases hinv with ⟨hf, _, _, _⟩ | hnok
            · rw [hf] at heqRow
              exact absurd heqRow (findRow_empty_isSome g o)
            · rcases t with _ | tt
              · cases h
              · simp only [] at h
                refine ih _ _ ?_ h
                exact Or.inr hnok
          · rw [heqRow] at h
            simp only [bind, Except.bind] at h
            split at h
            · cases h
            · next st3 happ =>
                have hflags := (applyRow_ok _ _ _ _ _ _ happ).2.1
                have hnok3 : nokFlags st3.currFlags = true := by
                  rcases hinv with ⟨hf, _, _, hstart⟩ | hnok
                  · have hns := hstart (o, t) (hq ▸ List.mem_cons_self _ _)
                    rw [hf] at heqRow
                    rw [hflags, hf]
                    exact findRow_empty_nonstartup g o row hns heqRow
                  · have hmem := List.mem_of_find?_eq_some heqRow
                    have hpred := List.find?_some heqRow
                    simp only [Bool.and_eq_true] at hpred
                    rw [hflags]
                    exact rowStep_nok row hmem st.currFlags hnok hpred.1.2
                refine ih _ _ ?_ h
                exact Or.inr hnok3

/-- A successful classification loop started under the startup-mode
invariant ends with flags exactly StartupInit plus Main. -/
lemma buildPassLoop_startup (g : PGraph) : ∀ (fuel : Nat) (st st2 : BPState),
    SInvS g st → buildPassLoop g fuel st = Except.ok st2 →
    st2.currFlags = startupFlags := by
  intro fuel
  induction fuel with
  | zero =>
      intro st st2 _ h
      cases h
  | succ n ih =>
      intro st st2 hinv h
      unfold buildPassLoop at h
      rcases hq : st.queue with _ | ⟨⟨o, t⟩, rest⟩
      · rw [hq] at h
        cases h
        rcases hinv.1 with ⟨_, _, hne⟩ | hf
        · exact absurd hq hne
        · exact hf
      · have hqmem := hinv.2 (o, t) (hq ▸ List.mem_cons_self _ _)
        have htail : ∀ q ∈ rest, startup_init_ops.contains (g.opType q.1) = true ∧
            g.opInputs q.1 = [] := by
          intro q hqm
          exact hinv.2 q (hq ▸ List.mem_cons_of_mem _ hqm)
        have hfor : st.currFlags = PassFlags.empty ∨ st.currFlags = startupFlags := by
          rcases hinv.1 with ⟨hf, _, _⟩ | hf
          · exact Or.inl hf
          · exact Or.inr hf
        obtain ⟨row0, hrow0, hstep⟩ := findRow_startup g o st.currFlags hqmem.1 hfor
        rw [hq] at h
        simp only [] at h
        by_cases hdup : st.revOps.contains o = true
        · rw [if_pos hdup] at h
          rcases hinv.1 with ⟨_, hrev, _⟩ | hf
          · rw [hrev] at hdup
            exact absurd hdup (by simp)
          · refine ih _ _ ?_ h
            exact ⟨Or.inr hf, htail⟩
        · rw [if_neg hdup] at h
          rw [hrow0] at h
          simp only [bind, Except.bind] at h
          split at h
          · cases h
          · next st3 happ =>
              obtain ⟨_, hflags, _, _, hqueue⟩ := applyRow_ok _ _ _ _ _ _ happ
              have hf3 : st3.currFlags = startupFlags := by
                rw [hflags]
                exact hstep
              have hq3 := hqueue hqmem.2
              refine ih _ _ ?_ h
              refine ⟨Or.inr hf3, ?_⟩
              intro q hqm
              rw [hq3] at hqm
              exact htail q hqm

/-- The classification loop preserves the primary-op invariant. -/
lemma buildPassLoop_primary (g : PGraph) : ∀ (fuel : Nat) (st st2 : BPState),
    PInvP g st → buildPassLoop g fuel st = Except.ok st2 → PInvP g st2 := by
  intro fuel
  induction fuel with
  | zero =>
      intro st st2 _ h
      cases h
  | succ n ih =>
      intro st st2 hinv h
      unfold buildPassLoop at h
      rcases hq : st.queue with _ | ⟨⟨o, t⟩, rest⟩
      · rw [hq] at h
        cases h
        exact hinv
      · rw [hq] at h
        simp only [] at h
        by_cases hdup : st.revOps.contains o = true
        · rw [if_pos hdup] at h
          refine ih _ _ ?_ h
          exact hinv
        · rw [if_neg hdup] at h
          rcases heqRow : findRow g o st.currFlags with _ | row
          · rw [heqRow] at h
            rcases t with _ | tt
            · cases h
            · simp only [] at h
              refine ih _ _ ?_ h
              exact hinv
          · rw [heqRow] at h
            simp only [bind, Except.bind] at h
            split at h
            · cases h
            · rename_i st3 happ
              obtain ⟨hrev3, _, hprim3, _, _⟩ := applyRow_ok _ _ _ _ _ _ happ
              refine ih _ _ ?_ h
              by_cases hb : g.opBlock o = NpuBlockType.Default
              · rw [if_pos hb] at hprim3
                constructor
                · intro p hp
                  rw [hprim3] at hp
                  obtain ⟨hm, hne⟩ := hinv.1 p hp
                  exact ⟨hrev3 ▸ List.mem_cons_of_mem _ hm, hne⟩
                · intro hpn o2 ho2
                  rw [hprim3] at hpn
                  rw [hrev3] at ho2
                  rcases List.mem_cons.mp ho2 with rfl | ho2
                  · exact hb
                  · exact hinv.2 hpn o2 ho2
              · rw [if_neg hb] at hprim3
                constructor
                · intro p hp
                  rw [hprim3] at hp
                  cases hp
                  exact ⟨hrev3 ▸ List.mem_cons_self _ _, hb⟩
                · intro hpn
                  rw [hprim3] at hpn
                  cases hpn
/-- If no primary op is synthesized, no packed op is a pre/post/
fuse-limited op. -/
lemma create_primary_op_none (g : PGraph) (l : List Nat)
    (h : create_primary_op g l = Except.ok none) :
    l.any (fun o => (npu_pre_ops ++ npu_post_ops ++ npu_post_fuse_limited_ops).contains
      (g.opType o)) = false := by
  unfold create_primary_op at h
  simp only [pure, Except.pure] at h
  split at h
  · rename_i hcond
    split at h
    · simp at hcond
    · split at h
      · cases h
      · cases h
  · rename_i hcond
    cases hb : l.any fun o =>
        (npu_pre_ops ++ npu_post_ops ++ npu_post_fuse_limited_ops).contains (g.opType o)
    · rfl
    · exact absurd hb hcond

/-- The exact shape of a synthesized primary op: the avgpool gets the
fresh op id, is prepended to the ops list, and the graph is extended by
the avgpool and its cloned output tensor, appending the avgpool to the
consumer list of the spliced input without removing the rewired
consumer. -/
lemma create_primary_op_some (g : PGraph) (l : List Nat) (gA : PGraph) (A : Nat)
    (l2 : List Nat) (h : create_primary_op g l = Except.ok (some (gA, A, l2))) :
    ∃ op rest inp irest, l = op :: rest ∧ g.opInputs op = inp :: irest ∧
      A = g.numOps ∧ l2 = A :: l ∧
      gA = { numOps := g.numOps + 1, numTens := g.numTens + 1,
             opType := updP g.opType g.numOps "AvgPool",
             opInputs := updP (updP g.opInputs g.numOps [inp]) op (g.numTens :: irest),
             opOutputs := updP g.opOutputs g.numOps [g.numTens],
             opRunOnNpu := updP g.opRunOnNpu g.numOps false,
             opBlock := updP g.opBlock g.numOps NpuBlockType.Pooling,
             tensOps := updP g.tensOps g.numTens [g.numOps],
             tensCons := updP (updP g.tensCons inp (g.tensCons inp ++ [g.numOps]))
               g.numTens [op],
             tensPurpose := updP g.tensPurpose g.numTens (g.tensPurpose inp) } := by
  rcases l with _ | ⟨op, tail⟩
  · unfold create_primary_op at h
    simp only [pure, Except.pure] at h
    split at h
    · try simp only [] at h
      cases h
    · cases h
  · unfold create_primary_op at h
    simp only [pure, Except.pure] at h
    split at h
    · try simp only [] at h
      rcases heqInp : g.opInputs op with _ | ⟨inp, irest⟩
      · rw [heqInp] at h
        cases h
      · rw [heqInp] at h
        simp only [] at h
        simp only [Except.ok.injEq, Option.some.injEq, Prod.mk.injEq] at h
        obtain ⟨hg, hA, hl2⟩ := h
        subst hA
        exact ⟨op, tail, inp, irest, rfl, heqInp, rfl, hl2.symm, hg.symm⟩
    · cases h

/-- A primary op recorded by the loop makes the pass primary-good. -/
lemma primaryGood_of_loop (g : PGraph) (st1 : BPState) (p0 : Nat)
    (hPinv : PInvP g st1) (hp : st1.primaryOp = some p0) :
    PrimaryGood g st1.revOps (some p0) := by
  obtain ⟨hm, hne⟩ := hPinv.1 p0 hp
  refine ⟨by simp, fun p hpp => ?_⟩
  cases hpp
  exact ⟨hm, Or.inl hne⟩

/-- A synthesized primary op makes the pass primary-good. -/
lemma primaryGood_of_synth (g : PGraph) (l : List Nat) (gA : PGraph) (A : Nat)
    (l2 : List Nat) (hcp : create_primary_op g l = Except.ok (some (gA, A, l2))) :
    PrimaryGood gA l2 (some A) := by
  obtain ⟨op, rest, inp, irest, hl, hinp, hA, hl2, hgA⟩ :=
    create_primary_op_some g l gA A l2 hcp
  subst hA
  subst hl2
  subst hgA
  refine ⟨by simp, fun p hpp => ?_⟩
  cases hpp
  refine ⟨List.mem_cons_self _ _, Or.inr ⟨rfl, ?_⟩⟩
  simp [updP]

/-- With no loop primary and no synthesis, no packed op qualifies. -/
lemma no_primary_contradiction (g : PGraph) (st1 : BPState)
    (hPinv : PInvP g st1) (hnone : st1.primaryOp = none)
    (hcpn : create_primary_op g st1.revOps = Except.ok none)
    (hq : QualOp g st1.revOps) : False := by
  obtain ⟨o, ho, hd⟩ := hq
  rcases hd with hd | hd
  · exact hd (hPinv.2 hnone o ho)
  · have hany := create_primary_op_none g st1.revOps hcpn
    have htrue : (st1.revOps.any fun o =>
        (npu_pre_ops ++ npu_post_ops ++ npu_post_fuse_limited_ops).contains
          (g.opType o)) = true := List.any_eq_true.mpr ⟨o, ho, hd⟩
    rw [htrue] at hany
    cases hany

/-- C3 (amended): a pass built by build_pass that contains a
qualifying operator has a non-null primary op of the claimed shape. -/
theorem buildPassCore_primary_op (g : PGraph) (vtr : Nat → Nat) (fuel : Nat)
    (startOps : List Nat) (ofm : Option Nat) (core : BPCore)
    (hok : buildPassCore g vtr fuel startOps ofm = Except.ok core)
    (_hnpu : core.ps.placement = PassPlacement.Npu)
    (hq : QualOp core.g core.ps.ops) :
    PrimaryGood core.g core.ps.ops core.ps.primaryOp := by
  unfold buildPassCore at hok
  simp only [bind, Except.bind, pure, Except.pure] at hok
  split at hok
  · cases hok
  · rename_i st1 hL
    have hPinv : PInvP g st1 := by
      refine buildPassLoop_primary g fuel _ st1 ⟨?_, ?_⟩ hL
      · intro p hp
        cases hp
      · intro _ o2 ho2
        cases ho2
    by_cases hcond :
        (st1.currFlags.npu && !(st1.currFlags.elementWise || st1.currFlags.mac)) = true
    case pos =>
      rw [if_pos hcond] at hok
      split at hok
      · cases hok
      · try simp only [] at hok
        rcases hp1 : st1.primaryOp with _ | p0
        · rw [hp1] at hok
          try simp only [] at hok
          split at hok
          · cases hok
          · rename_i cres hcp
            rcases cres with _ | ⟨gA, A2, l2⟩
            · try simp only [] at hok
              repeat' split at hok
              all_goals cases hok
              all_goals exact (no_primary_contradiction g st1 hPinv hp1 hcp hq).elim
            · try simp only [] at hok
              repeat' split at hok
              all_goals cases hok
              all_goals exact primaryGood_of_synth g st1.revOps gA A2 l2 hcp
        · rw [hp1] at hok
          try simp only [] at hok
          repeat' split at hok
          all_goals cases hok
          all_goals exact primaryGood_of_loop g st1 p0 hPinv hp1
    case neg =>
      rw [if_neg hcond] at hok
      split at hok
      · cases hok
      · try simp only [] at hok
        rcases hp1 : st1.primaryOp with _ | p0
        · rw [hp1] at hok
          try simp only [] at hok
          split at hok
          · cases hok
          · rename_i cres hcp
            rcases cres with _ | ⟨gA, A2, l2⟩
            · try simp only [] at hok
              repeat' split at hok
              all_goals cases hok
              all_goals exact (no_primary_contradiction g st1 hPinv hp1 hcp hq).elim
            · try simp only [] at hok
              repeat' split at hok
              all_goals cases hok
              all_goals exact primaryGood_of_synth g st1.revOps gA A2 l2 hcp
        · rw [hp1] at hok
          try simp only [] at hok
          repeat' split at hok
          all_goals cases hok
          all_goals exact primaryGood_of_loop g st1 p0 hPinv hp1

/-- Counting over a duplicate-free list when the predicate flips from
true to false at exactly one member. -/
lemma countP_flip_one : ∀ (l : List Nat), l.Nodup → ∀ (op : Nat), op ∈ l →
    ∀ (p q : Nat → Bool), (∀ o ∈ l, o ≠ op → q o = p o) →
    p op = true → q op = false → l.countP p = l.countP q + 1 := by
  intro l
  induction l with
  | nil =>
      intro _ op hop
      cases hop
  | cons a t ihl =>
      intro hnd op hop p q hsame hp hq
      rw [List.countP_cons, List.countP_cons]
      rcases List.mem_cons.mp hop with rfl | hopt
      · have hopnt : op ∉ t := (List.nodup_cons.mp hnd).1
        have hct : t.countP p = t.countP q := by
          refine List.countP_congr ?_
          intro o ho
          rw [(hsame o (List.mem_cons_of_mem _ ho)
            (fun he => hopnt (he ▸ ho)))]
        rw [hp, hq, hct]
        simp
      · have hane : a ≠ op := fun he =>
          (List.nodup_cons.mp hnd).1 (he ▸ hopt)
        have hqa := hsame a (List.mem_cons_self _ _) hane
        have hrec := ihl (List.nodup_cons.mp hnd).2 op hopt p q
          (fun o ho hne => hsame o (List.mem_cons_of_mem _ ho) hne) hp hq
        rw [hqa, hrec]
        cases p a <;> simp

/-- C4 (amended): primary-op synthesis appends the avgpool to the
consumer list of the spliced input tensor without removing the rewired
consumer from it, so if that tensor had as many consumers as listing
operators before, afterwards its consumer list is one entry longer
than its lister count (the stale entry). -/
theorem create_primary_op_stale_consumer (g : PGraph) (op : Nat)
    (rest : List Nat) (inp : Nat) (irest : List Nat) (gA : PGraph) (A : Nat)
    (l2 : List Nat)
    (hin : g.opInputs op = inp :: irest)
    (hok : create_primary_op g (op :: rest) = Except.ok (some (gA, A, l2)))
    (hop : op < g.numOps) (hinp : inp < g.numTens)
    (hirest : inp ∉ irest)
    (hbal : (g.tensCons inp).length = countListers g inp) :
    (gA.tensCons inp).length = countListers gA inp + 1 := by
  obtain ⟨op2, rest2, inp2, irest2, hl, hinp2, hA, hl2, hgA⟩ :=
    create_primary_op_some g (op :: rest) gA A l2 hok
  obtain ⟨rfl, rfl⟩ : op = op2 ∧ rest = rest2 := by
    injection hl with h1 h2
    exact ⟨h1, h2⟩
  rw [hin] at hinp2
  obtain ⟨rfl, rfl⟩ : inp = inp2 ∧ irest = irest2 := by
    injection hinp2 with h1 h2
    exact ⟨h1, h2⟩
  subst hA
  subst hgA
  have hne_tens : inp ≠ g.numTens := Nat.ne_of_lt hinp
  have hne_opA : op ≠ g.numOps := Nat.ne_of_lt hop
  have hq_op : ((updP (updP g.opInputs g.numOps [inp]) op
      (g.numTens :: irest)) op).contains inp = false := by
    simp [updP, hne_tens, hirest]
  have hp_op : (g.opInputs op).contains inp = true := by
    rw [hin]
    simp
  have hflip := countP_flip_one (List.range g.numOps) (List.nodup_range _) op
    (List.mem_range.mpr hop)
    (fun o => (g.opInputs o).contains inp)
    (fun o => ((updP (updP g.opInputs g.numOps [inp]) op
      (g.numTens :: irest)) o).contains inp)
    (fun o ho hne => by
      have holt := List.mem_range.mp ho
      simp [updP, hne, Nat.ne_of_lt holt])
    hp_op hq_op
  unfold countListers at hbal ⊢
  simp only [] at hbal ⊢
  rw [List.range_succ, List.countP_append]
  have hsing : ([g.numOps].countP fun o =>
      ((updP (updP g.opInputs g.numOps [inp]) op
        (g.numTens :: irest)) o).contains inp) = 1 := by
    simp [updP, (Ne.symm hne_opA : g.numOps ≠ op)]
  have hlen : ((updP (updP g.tensCons inp (g.tensCons inp ++ [g.numOps]))
      g.numTens [op]) inp).length = (g.tensCons inp).length + 1 := by
    simp [updP, hne_tens]
  rw [hsing, hlen]
  omega

/-- C8 (amended): whenever `build_pass` is invoked the way
`pack_into_passes` invokes it — on a single op that is not a
startup-init op, or on a nonempty list of startup-init ops none of
which has inputs — the flag accumulation ends with exactly one of the
flags Npu, Cpu, MemoryOnly, StartupInit set, so the
placement-assignment assertions in `build_pass` (placement still
Unknown before each assignment, and not Unknown at the end) never
fail. -/
theorem buildPassCore_placement_safe (g : PGraph) (vtr : Nat → Nat) (fuel : Nat)
    (startOps : List Nat) (ofm : Option Nat)
    (hcall :
      (∃ o, startOps = [o] ∧ startup_init_ops.contains (g.opType o) = false) ∨
      (startOps ≠ [] ∧ ∀ o ∈ startOps,
        startup_init_ops.contains (g.opType o) = true ∧ g.opInputs o = [])) :
    buildPassCore g vtr fuel startOps ofm ≠ Except.error PackErr.placementConflict ∧
    buildPassCore g vtr fuel startOps ofm ≠ Except.error PackErr.placementUnknown := by
  have hmain : ∀ e : PackErr, buildPassCore g vtr fuel startOps ofm = Except.error e →
      e ≠ PackErr.placementConflict ∧ e ≠ PackErr.placementUnknown := by
    intro e h
    unfold buildPassCore at h
    simp only [bind, Except.bind, pure, Except.pure] at h
    split at h
    · rename_i hL
      cases h
      exact buildPassLoop_no_placement_err g fuel _ _ hL
    · rename_i st1 hL
      have hflags : nokFlags st1.currFlags = true ∨ st1.currFlags = startupFlags := by
        rcases hcall with ⟨o, hso, hns⟩ | ⟨hne, hall⟩
        · refine Or.inl (buildPassLoop_nok g fuel _ st1 ?_ hL)
          refine Or.inl ⟨rfl, rfl, by simp [hso], ?_⟩
          intro q hqm
          rw [hso] at hqm
          simp at hqm
          subst hqm
          exact hns
        · refine Or.inr (buildPassLoop_startup g fuel _ st1 ?_ hL)
          refine ⟨Or.inl ⟨rfl, rfl, by simpa using hne⟩, ?_⟩
          intro q hqm
          simp only [List.mem_map] at hqm
          obtain ⟨o, ho, rfl⟩ := hqm
          exact hall o ho
      by_cases hcond :
          (st1.currFlags.npu && !(st1.currFlags.elementWise || st1.currFlags.mac)) = true
      · rw [if_pos hcond] at h
        have hnokA : nokFlags (st1.currFlags.union { elementWise := true }) = true := by
          rcases hflags with hnok | hstart
          · exact nok_union_ew _ hnok
          · rw [hstart] at hcond
            exact absurd hcond (by decide)
        simp only [] at h
        rw [decidePlacement_nok _ hnokA] at h
        simp only [] at h
        repeat' split at h
        all_goals cases h
        all_goals first
          | exact ⟨by decide, by decide⟩
          | exact create_primary_op_no_placement _ _ _ (by assumption)
      · rw [if_neg hcond] at h
        rcases hflags with hnok | hstart
        · rw [decidePlacement_nok _ hnok] at h
          simp only [] at h
          repeat' split at h
          all_goals cases h
          all_goals first
            | exact ⟨by decide, by decide⟩
            | exact create_primary_op_no_placement _ _ _ (by assumption)
        · rw [hstart] at h
          rw [(by decide : decidePlacement startupFlags =
            Except.ok PassPlacement.StartupInit)] at h
          simp only [] at h
          repeat' split at h
          all_goals cases h
          all_goals first
            | exact ⟨by decide, by decide⟩
            | exact create_primary_op_no_placement _ _ _ (by assumption)
  exact ⟨fun hcon => absurd rfl (hmain _ hcon).1,
    fun hcon => absurd rfl (hmain _ hcon).2⟩

set_option maxHeartbeats 1600000 in
/-- Counterexample for C3: packing a lone DMA op produces an Npu-placed
pass whose primary op is null (no primary is recorded by the loop and
DMA is not a pre/post op, so none is synthesized). -/
theorem pack_npu_pass_without_primary :
    dmaExPasses = [(PassPlacement.Npu, none)] := rfl

set_option maxHeartbeats 1600000 in
/-- Witness for C3: the core result of packing the Relu of
`reluExGraph` (an Npu pass containing the post-op Relu) has a non-null
primary op. -/
theorem buildPassCore_primary_op_witness : c3wCore.ps.primaryOp ≠ none :=
  (buildPassCore_primary_op reluExGraph (fun _ => 0) 12 [1] (some 1) c3wCore rfl
    rfl ⟨1, by decide, Or.inr (by decide)⟩).1

set_option maxHeartbeats 1600000 in
/-- Counterexample for C4: after packing `reluExGraph`, tensor 0 has
two consumer-list entries (the rewired Relu and the synthesized
avgpool) but only one operator, the avgpool, still lists it among its
inputs. -/
theorem pack_consumer_count_mismatch :
    reluExConsumers = ([1, 3], 1) ∧
      reluExConsumers.1.length ≠ reluExConsumers.2 := by
  constructor
  · rfl
  · decide

set_option maxHeartbeats 1600000 in
/-- Witness for C4: the synthesis applied to the Relu of `reluExGraph`
leaves its input tensor with one more consumer entry than listing
operators. -/
theorem create_primary_op_stale_consumer_witness :
    ((c4wTriple.1).tensCons 0).length = countListers c4wTriple.1 0 + 1 :=
  create_primary_op_stale_consumer reluExGraph 1 [] 0 [] c4wTriple.1
    c4wTriple.2.1 c4wTriple.2.2 rfl rfl (by decide) (by decide) (by decide)
    (by decide)

set_option maxHeartbeats 1600000 in
/-- Counterexample for C8: when a startup-init Const consumes the
output of an NPU SplitSliceRead, the classification mixes StartupInit
with Npu and the placement-assignment assertion fails. -/
theorem pack_placement_conflict :
    pack_into_passes constExGraph [2] 12 = Except.error PackErr.placementConflict :=
  rfl

set_option maxHeartbeats 1600000 in
/-- Witness for C8: the normal-mode invocation packing the DMA op of
`dmaExGraph` does not report a placement assertion. -/
theorem buildPassCore_placement_safe_witness :
    buildPassCore dmaExGraph (fun _ => 0) 12 [0] (some 1) ≠
      Except.error PackErr.placementConflict :=
  (buildPassCore_placement_safe dmaExGraph (fun _ => 0) 12 [0] (some 1)
    (Or.inl ⟨0, rfl, by decide⟩)).1

end Pack

end Vela
